import Mathlib

/-!
Shallow embedding of the manifest resolution and aliasing engine of the
`rregistry` container registry (files `src/manifest/mod.rs`, `src/tags/mod.rs`,
`src/main.rs`).

The Redis backend is modelled as an association list from keys to values
(`Store.kv`), together with a connection flag (`Store.conn`, false meaning the
backend is unreachable so every command fails) and a log of issued backend
operations (`Store.log`, used to state claims about which operations a code
path performs).  Serialized manifest bytes are modelled by `Bin`: `Bin.good m`
stands for bytes that deserialize to `m`, `Bin.bad` for bytes on which
`bincode::deserialize` fails.  Rust `Result` errors are `Out.err`, Rust panics
(`unwrap`, `expect`, `panic!`) are `Out.crash`, and `Out.timeout` marks fuel
exhaustion of the fuelled resolution function (the Rust recursion in
`manifest` is unbounded).
-/

set_option autoImplicit false

/-- OCI Content Descriptor (struct `Descriptor` in `src/main.rs`).  The
`HashMap<String, String>` of annotation entries is modelled as a list of
pairs. -/
structure Descriptor where
  mediaType : String
  digest : String
  size : Int
  urls : List String
  annots : List (String × String)
deriving DecidableEq

/-- OCI image manifest (struct `Manifest` in `src/manifest/mod.rs`). -/
structure Manifest where
  schemaVersion : Nat
  mediaType : String
  config : Descriptor
  layers : List Descriptor
  annots : List (String × String)
deriving DecidableEq

/-- Stored bytes: `good m` deserializes to `m`, `bad` makes
`bincode::deserialize` fail. -/
inductive Bin where
  | good (m : Manifest)
  | bad
deriving DecidableEq

/-- A Redis value that a key can hold: a string value (serialized bytes) or a
set of strings. -/
inductive RVal where
  | str (b : Bin)
  | set (members : List String)
deriving DecidableEq

/-- A Redis protocol reply value, as consumed by `FromRedisValue`. -/
inductive Value where
  | data (b : Bin)
  | nil
deriving DecidableEq

/-- A backend operation, recorded in the store log when issued. -/
inductive Op where
  | existsKey (k : String)
  | get (k : String)
  | smembers (k : String)
  | getdel (k : String)
  | del (k : String)
  | srem (k : String) (member : String)
deriving DecidableEq

/-- Classifies the backend operations that read without mutating. -/
def Op.isRead : Op → Bool
  | .existsKey _ => true
  | .get _ => true
  | .smembers _ => true
  | .getdel _ => false
  | .del _ => false
  | .srem _ _ => false

/-- Outcome of running a piece of the Rust code: a returned value, a returned
`Err`, a Rust panic, or exhaustion of the recursion fuel. -/
inductive Out (α : Type) where
  | ok (a : α)
  | err (msg : String)
  | crash (msg : String)
  | timeout
deriving DecidableEq

/-- The modelled Redis backend: reachability flag, key-value content, and the
log of operations issued so far. -/
structure Store where
  conn : Bool
  kv : List (String × RVal)
  log : List Op
deriving DecidableEq

/-- Key lookup in the association list. -/
def kvLookup (k : String) : List (String × RVal) → Option RVal
  | [] => none
  | (k2, v) :: rest => if k2 = k then some v else kvLookup k rest

/-- Remove every binding of a key. -/
def kvRemove (k : String) : List (String × RVal) → List (String × RVal)
  | [] => []
  | (k2, v) :: rest => if k2 = k then kvRemove k rest else (k2, v) :: kvRemove k rest

/-- Bind a key to a value, dropping older bindings. -/
def kvSet (k : String) (v : RVal) (kv : List (String × RVal)) :
    List (String × RVal) :=
  (k, v) :: kvRemove k kv

/-- Append an issued operation to the log. -/
def pushLog (op : Op) (st : Store) : Store :=
  ⟨st.conn, st.kv, st.log ++ [op]⟩

/- ## Reference validator (`src/tags/mod.rs`, `is_manifest_name_valid` in
`src/manifest/mod.rs`).  The three anchored regexes are embedded as character
automata over `String.data`; all character classes in the regexes are ASCII,
matching `Char.isAlphanum` / `Char.isLower` / `Char.isDigit`. -/

/-- First character of a tag: `[a-zA-Z0-9_]`. -/
def isTagStart (c : Char) : Bool := c.isAlphanum || c = '_'

/-- Continuation character of a tag: `[a-zA-Z0-9._-]`. -/
def isTagChar (c : Char) : Bool := c.isAlphanum || c = '.' || c = '_' || c = '-'

/-- Tag validation, regex `^[a-zA-Z0-9_][a-zA-Z0-9._-]{0,127}$`
(`is_tag_name_valid` in `src/tags/mod.rs`). -/
def is_tag_name_valid (s : String) : Bool :=
  match s.data with
  | [] => false
  | c :: cs => isTagStart c && decide (cs.length ≤ 127) && cs.all isTagChar

/-- Algorithm-part character of a digest or name segment: `[a-z0-9]`. -/
def isAlgoChar (c : Char) : Bool := c.isLower || c.isDigit

/-- Separator inside the algorithm part of a digest: `[+._-]`. -/
def isDigestSep (c : Char) : Bool := c = '+' || c = '.' || c = '_' || c = '-'

/-- Encoded-part character of a digest: `[a-zA-Z0-9=_-]`. -/
def isEncChar (c : Char) : Bool := c.isAlphanum || c = '=' || c = '_' || c = '-'

/-- Automaton for the digest regex after its first character: continue the
current `[a-z0-9]+` group, start a new group after `[+._-]`, or switch at `:`
to a non-empty `[a-zA-Z0-9=_-]+` encoded part. -/
def digestTail : List Char → Bool
  | [] => false
  | c :: rest =>
    if c = ':' then !rest.isEmpty && rest.all isEncChar
    else if isAlgoChar c then digestTail rest
    else if isDigestSep c then
      match rest with
      | [] => false
      | c2 :: rest2 => isAlgoChar c2 && digestTail rest2
    else false

/-- Digest validation, regex `^[a-z0-9]+([+._-][a-z0-9]+)*:[a-zA-Z0-9=_-]+$`
(`is_accepted_digest` in `src/tags/mod.rs`). -/
def is_accepted_digest (s : String) : Bool :=
  match s.data with
  | [] => false
  | c :: cs => isAlgoChar c && digestTail cs

/-- Separator inside a repository name: `[._-]` or the segment separator `/`. -/
def isNameSep (c : Char) : Bool := c = '.' || c = '_' || c = '-' || c = '/'

/-- Automaton for the repository-name regex after its first character: the
string may end after a `[a-z0-9]` character, and every separator must be
followed by a `[a-z0-9]` character. -/
def nameTail : List Char → Bool
  | [] => true
  | c :: rest =>
    if isAlgoChar c then nameTail rest
    else if isNameSep c then
      match rest with
      | [] => false
      | c2 :: rest2 => isAlgoChar c2 && nameTail rest2
    else false

/-- Repository-name validation, regex
`^[a-z0-9]+([._-][a-z0-9]+)*(/[a-z0-9]+([._-][a-z0-9]+)*)*$`
(`is_manifest_name_valid` in `src/manifest/mod.rs`). -/
def is_manifest_name_valid (s : String) : Bool :=
  match s.data with
  | [] => false
  | c :: cs => isAlgoChar c && nameTail cs

/-- Request gate used by all three HTTP handlers (`is_valid_request`). -/
def is_valid_request (name reference : String) : Bool :=
  is_manifest_name_valid name && (is_tag_name_valid reference || is_accepted_digest reference)

/- ## Key scheme -/

/-- `format!("\x7b\x7d::\x7b\x7d::\x7b\x7d", MANIFEST_PREFIX_KEY, name, reference)`. -/
def generate_manifest_key (name reference : String) : String :=
  "manifest::" ++ name ++ "::" ++ reference

/-- `format!` of the alias-set key `manifest::<name>::<digest>::alias`. -/
def generate_alias_key (name digest : String) : String :=
  "manifest::" ++ name ++ "::" ++ digest ++ "::alias"

/- ## Backend commands.  Each command first records itself in the log; with an
unreachable backend it returns a command error.  Read commands return the
store component unchanged apart from the log. -/

/-- Redis `EXISTS`. -/
def existsCmd (k : String) (st : Store) : Except String Bool × Store :=
  let st1 := pushLog (Op.existsKey k) st
  (if st1.conn = false then Except.error "connection refused"
   else Except.ok (kvLookup k st1.kv).isSome, st1)

/-- Redis `GET`: `nil` for an absent key, the stored bytes for a string key, a
`WRONGTYPE` command error for a set key. -/
def getCmd (k : String) (st : Store) : Except String Value × Store :=
  let st1 := pushLog (Op.get k) st
  (if st1.conn = false then Except.error "connection refused"
   else
     match kvLookup k st1.kv with
     | none => Except.ok Value.nil
     | some (RVal.str b) => Except.ok (Value.data b)
     | some (RVal.set _) => Except.error "WRONGTYPE", st1)

/-- Redis `SMEMBERS`: the empty list for an absent key, the members for a set
key, a `WRONGTYPE` command error for a string key. -/
def smembersCmd (k : String) (st : Store) : Except String (List String) × Store :=
  let st1 := pushLog (Op.smembers k) st
  (if st1.conn = false then Except.error "connection refused"
   else
     match kvLookup k st1.kv with
     | none => Except.ok []
     | some (RVal.set ms) => Except.ok ms
     | some (RVal.str _) => Except.error "WRONGTYPE", st1)

/-- Redis `GETDEL`: atomically fetch and remove a string key. -/
def getdelCmd (k : String) (st : Store) : Except String Value × Store :=
  let st1 := pushLog (Op.getdel k) st
  if st1.conn = false then (Except.error "connection refused", st1)
  else
    match kvLookup k st1.kv with
    | none => (Except.ok Value.nil, st1)
    | some (RVal.str b) => (Except.ok (Value.data b), ⟨st1.conn, kvRemove k st1.kv, st1.log⟩)
    | some (RVal.set _) => (Except.error "WRONGTYPE", st1)

/-- Redis `DEL`: remove a key of any type, returning how many keys were
removed; the callers receive it as an `i8` count, modelled as `Int`. -/
def delCmd (k : String) (st : Store) : Except String Int × Store :=
  let st1 := pushLog (Op.del k) st
  if st1.conn = false then (Except.error "connection refused", st1)
  else
    match kvLookup k st1.kv with
    | none => (Except.ok 0, st1)
    | some _ => (Except.ok 1, ⟨st1.conn, kvRemove k st1.kv, st1.log⟩)

/-- Redis `SREM`: remove one member from a set key; Redis deletes a set key
that becomes empty.  The callers receive the count as an `i8`, modelled as
`Int`. -/
def sremCmd (k member : String) (st : Store) : Except String Int × Store :=
  let st1 := pushLog (Op.srem k member) st
  if st1.conn = false then (Except.error "connection refused", st1)
  else
    match kvLookup k st1.kv with
    | none => (Except.ok 0, st1)
    | some (RVal.str _) => (Except.error "WRONGTYPE", st1)
    | some (RVal.set ms) =>
      if member ∈ ms then
        let ms2 := ms.erase member
        if ms2 = [] then (Except.ok 1, ⟨st1.conn, kvRemove k st1.kv, st1.log⟩)
        else (Except.ok 1, ⟨st1.conn, kvSet k (RVal.set ms2) st1.kv, st1.log⟩)
      else (Except.ok 0, st1)

/- ## The manifest engine (`src/manifest/mod.rs`) -/

/-- `impl FromRedisValue for Manifest`: deserialize stored bytes; panics on
bytes `bincode` cannot decode (`bincode::deserialize(bytes).unwrap()`), and
turns `nil` into an error. -/
def from_redis_value (v : Value) : Out Manifest :=
  match v with
  | Value.data (Bin.good m) => Out.ok m
  | Value.data Bin.bad => Out.crash "bincode deserialize"
  | Value.nil => Out.err "Couldnt find manifest"

/-- `con.get::<_, Manifest>(key)`: the raw `GET` followed by
`from_redis_value`; a command error stays an error. -/
def conGetManifest (k : String) (st : Store) : Out Manifest × Store :=
  match getCmd k st with
  | (Except.error e, st1) => (Out.err e, st1)
  | (Except.ok v, st1) => (from_redis_value v, st1)

/-- `manifest_exist`: two `EXISTS` checks, each followed by
`.expect("connection with redis")` which panics on a command error. -/
def manifest_exist (name reference : String) (st : Store) : Out Bool × Store :=
  match existsCmd (generate_manifest_key name reference) st with
  | (Except.error _, st1) => (Out.crash "connection with redis", st1)
  | (Except.ok exists_key, st1) =>
    match existsCmd (generate_alias_key name reference) st1 with
    | (Except.error _, st2) => (Out.crash "connection with redis", st2)
    | (Except.ok exists_alias, st2) => (Out.ok (exists_key || exists_alias), st2)

/-- The iterator chain
`alias.iter().filter(|t| manifest_exist(name, t, con).unwrap()).take(1).last()`:
runs `manifest_exist` on each member in order until one is live; a panic
inside the check propagates. -/
def findFirstLive (name : String) : List String → Store → Out (Option String) × Store
  | [], st => (Out.ok none, st)
  | t :: ts, st =>
    match manifest_exist name t st with
    | (Out.ok true, st1) => (Out.ok (some t), st1)
    | (Out.ok false, st1) => findFirstLive name ts st1
    | (Out.err e, st1) => (Out.err e, st1)
    | (Out.crash e, st1) => (Out.crash e, st1)
    | (Out.timeout, st1) => (Out.timeout, st1)

/-- `manifest` (Resolve): direct lookup, then alias chase.  The Rust function
recurses with no depth bound, so it is embedded with explicit fuel and
`Out.timeout` marks fuel exhaustion; on a store where the chase cycles, every
fuel value times out, which models divergence.  The `.expect("couldn't find an
existing alias")` on the filtered iterator panics when no alias member is
live; an error from `SMEMBERS` reaches `bail!("Couldn't find manifest")`. -/
def manifest : Nat → String → String → Store → Out Manifest × Store
  | 0, _, _, st => (Out.timeout, st)
  | Nat.succ fuel, name, reference, st =>
    match conGetManifest (generate_manifest_key name reference) st with
    | (Out.ok m, st1) => (Out.ok m, st1)
    | (Out.crash e, st1) => (Out.crash e, st1)
    | (Out.timeout, st1) => (Out.timeout, st1)
    | (Out.err _, st1) =>
      match smembersCmd (generate_alias_key name reference) st1 with
      | (Except.error _, st2) => (Out.err "Couldnt find manifest", st2)
      | (Except.ok als, st2) =>
        match findFirstLive name als st2 with
        | (Out.ok (some t), st3) => manifest fuel name t st3
        | (Out.ok none, st3) => (Out.crash "couldnt find an existing alias", st3)
        | (Out.err e, st3) => (Out.err e, st3)
        | (Out.crash e, st3) => (Out.crash e, st3)
        | (Out.timeout, st3) => (Out.timeout, st3)

/-- Rust `i8` addition: `some` of the sum while it stays in the `i8` range,
`none` on overflow.  The source (`delete_alias`, `search_alias_and_delete_it`)
sums its removal counts in `i8`; an overflowing addition panics in a debug
build ("attempt to add with overflow") and the callers below map `none` to
that panic.  (A release build would wrap instead; every theorem below stays
within the overflow-free range on which the two behaviors agree.) -/
def i8add (a b : Int) : Option Int :=
  if -128 ≤ a + b ∧ a + b ≤ 127 then some (a + b) else none

/-- The `for_each` loop of `delete_alias`: `sum += con.del(...)` over the
members in order, with the running sum held in an `i8`; `.unwrap()` panics on
a command error, and an overflowing `+=` panics. -/
def delete_alias_go (name : String) : Int → List String → Store → Out Int × Store
  | sum, [], st => (Out.ok sum, st)
  | sum, t :: ts, st =>
    match delCmd (generate_manifest_key name t) st with
    | (Except.error e, st1) => (Out.crash e, st1)
    | (Except.ok c, st1) =>
      match i8add sum c with
      | some sum2 => delete_alias_go name sum2 ts st1
      | none => (Out.crash "attempt to add with overflow", st1)

/-- `delete_alias`: for each member, `con.del(...)` on its manifest key,
summing the removal counts in order into an `i8` starting from 0. -/
def delete_alias (name : String) (als : List String) (st : Store) :
    Out Int × Store :=
  delete_alias_go name 0 als st

/-- `delete_alias_key`: `con.del(alias_key).unwrap()`, an `i8` count. -/
def delete_alias_key (alias_key : String) (st : Store) : Out Int × Store :=
  match delCmd alias_key st with
  | (Except.error e, st1) => (Out.crash e, st1)
  | (Except.ok c, st1) => (Out.ok c, st1)

/-- `search_alias_and_delete_it`: list the alias set, delete each member tag
key, then the alias-set key itself, returning the `i8` sum
`delete_alias(..).unwrap().add(delete_alias_key(..).unwrap())`; an `SMEMBERS`
error yields `Ok(0)`, and an overflowing `i8` addition panics. -/
def search_alias_and_delete_it (name reference : String) (st : Store) : Out Int × Store :=
  match smembersCmd (generate_alias_key name reference) st with
  | (Except.error _, st1) => (Out.ok 0, st1)
  | (Except.ok als, st1) =>
    match delete_alias name als st1 with
    | (Out.ok s1, st2) =>
      match delete_alias_key (generate_alias_key name reference) st2 with
      | (Out.ok s2, st3) =>
        match i8add s1 s2 with
        | some s => (Out.ok s, st3)
        | none => (Out.crash "attempt to add with overflow", st3)
      | (Out.err e, st3) => (Out.crash e, st3)
      | (Out.crash e, st3) => (Out.crash e, st3)
      | (Out.timeout, st3) => (Out.timeout, st3)
    | (Out.err e, st2) => (Out.crash e, st2)
    | (Out.crash e, st2) => (Out.crash e, st2)
    | (Out.timeout, st2) => (Out.timeout, st2)

/-- `remove_tag_relation_from_digest`: `srem` this one tag from the alias set
of the deleted manifest its config digest, with `.unwrap()`. -/
def remove_tag_relation_from_digest (name reference : String) (st : Store)
    (m : Manifest) : Out Int × Store :=
  match sremCmd (generate_alias_key name m.config.digest) reference st with
  | (Except.error e, st1) => (Out.crash e, st1)
  | (Except.ok c, st1) => (Out.ok c, st1)

/-- `delete`: `GETDEL` the manifest key (outer `.unwrap()` panics on a command
error), then the digest/tag cascade on success of deserialization, else the
alias fallback; the cascade result is unwrapped with `.expect(...)`. -/
def delete (name reference : String) (st : Store) : Out Int × Store :=
  match getdelCmd (generate_manifest_key name reference) st with
  | (Except.error e, st1) => (Out.crash e, st1)
  | (Except.ok v, st1) =>
    match from_redis_value v with
    | Out.crash e => (Out.crash e, st1)
    | Out.timeout => (Out.timeout, st1)
    | Out.ok m =>
      if is_accepted_digest reference then
        match search_alias_and_delete_it name reference st1 with
        | (Out.ok s, st2) => (Out.ok s, st2)
        | (Out.err _, st2) => (Out.crash "couldnt delete all elements", st2)
        | (Out.crash e, st2) => (Out.crash e, st2)
        | (Out.timeout, st2) => (Out.timeout, st2)
      else
        match remove_tag_relation_from_digest name reference st1 m with
        | (Out.ok s, st2) => (Out.ok s, st2)
        | (Out.err _, st2) => (Out.crash "couldnt delete all elements", st2)
        | (Out.crash e, st2) => (Out.crash e, st2)
        | (Out.timeout, st2) => (Out.timeout, st2)
    | Out.err _ => search_alias_and_delete_it name reference st1

/-- HTTP status of the three handlers. -/
inductive Status where
  | ok
  | notFound
  | accepted
deriving DecidableEq

/-- Handler `check_manifest` (HEAD): validation gate, then `manifest_exist`
with `.expect("couldn't find keys")`. -/
def check_manifest (name reference : String) (st : Store) : Out Status × Store :=
  if is_valid_request name reference = false then (Out.ok Status.notFound, st)
  else
    match manifest_exist name reference st with
    | (Out.ok true, st1) => (Out.ok Status.ok, st1)
    | (Out.ok false, st1) => (Out.ok Status.notFound, st1)
    | (Out.err _, st1) => (Out.crash "couldnt find keys", st1)
    | (Out.crash e, st1) => (Out.crash e, st1)
    | (Out.timeout, st1) => (Out.timeout, st1)

/-- Handler `get_manifest` (GET): validation gate, then `manifest` with
`.expect("couldn't find manifest")`, so an engine error panics the request. -/
def get_manifest (fuel : Nat) (name reference : String) (st : Store) :
    Out (Option Manifest) × Store :=
  if is_valid_request name reference = false then (Out.ok none, st)
  else
    match manifest fuel name reference st with
    | (Out.ok m, st1) => (Out.ok (some m), st1)
    | (Out.err _, st1) => (Out.crash "couldnt find manifest", st1)
    | (Out.crash e, st1) => (Out.crash e, st1)
    | (Out.timeout, st1) => (Out.timeout, st1)

/-- Handler `delete_manifest` (DELETE): validation gate, then `delete`;
`Accepted` on a positive count, `NotFound` on zero or on an engine error. -/
def delete_manifest (name reference : String) (st : Store) : Out Status × Store :=
  if is_valid_request name reference = false then (Out.ok Status.notFound, st)
  else
    match delete name reference st with
    | (Out.ok n, st1) =>
      if n > 0 then (Out.ok Status.accepted, st1) else (Out.ok Status.notFound, st1)
    | (Out.err _, st1) => (Out.ok Status.notFound, st1)
    | (Out.crash e, st1) => (Out.crash e, st1)
    | (Out.timeout, st1) => (Out.timeout, st1)

/-- Divergence of Resolve on a given store: every fuel bound is exhausted. -/
def resolveDiverges (name reference : String) (st : Store) : Prop :=
  ∀ fuel, (manifest fuel name reference st).1 = Out.timeout

/-- Number of colon characters in a string. -/
def colonCount (s : String) : Nat := s.data.count ':'

/-- `ROExt st st2`: the backend content and reachability are unchanged from
`st` to `st2` and the log only grew by read operations. -/
def ROExt (st st2 : Store) : Prop :=
  st2.conn = st.conn ∧ st2.kv = st.kv ∧
    ∃ ops, st2.log = st.log ++ ops ∧ ops.all Op.isRead = true

/-- Every member of an alias set is dead in the given backend content: it has
neither a manifest key nor an alias-set key of its own. -/
def deadAll (name : String) (kv : List (String × RVal)) (ms : List String) : Bool :=
  ms.all (fun t => !(kvLookup (generate_manifest_key name t) kv).isSome
    && !(kvLookup (generate_alias_key name t) kv).isSome)

/-- Association-list content of a well-formed single-manifest repository: the
manifest stored under its digest key, one manifest key per aliasing tag, and
(when there is at least one tag) the alias set of the digest holding exactly
the tags. -/
def canonicalKv (n d : String) (m : Manifest) (ts : List String) :
    List (String × RVal) :=
  match ts with
  | [] => [(generate_manifest_key n d, RVal.str (Bin.good m))]
  | _ :: _ =>
    (generate_manifest_key n d, RVal.str (Bin.good m)) ::
      (generate_alias_key n d, RVal.set ts) ::
        ts.map (fun t => (generate_manifest_key n t, RVal.str (Bin.good m)))

/-- A concrete manifest used in concrete instantiations. -/
def exManifest : Manifest :=
  ⟨2, "application/vnd.oci.image.manifest.v1+json",
    ⟨"application/vnd.oci.image.config.v1+json", "sha256:aa", 0, [], []⟩, [], []⟩

/-- A reachable backend with no keys. -/
def exStoreEmpty : Store := ⟨true, [], []⟩

/-- An unreachable backend. -/
def exStoreDown : Store := ⟨false, [], []⟩

/-- A corrupted backend: the alias set of `(repo, v1)` exists and names `v1`
itself, while no manifest key is stored. -/
def exStoreCyc : Store :=
  ⟨true, [(generate_alias_key "repo" "v1", RVal.set ["v1"])], []⟩

/-- A backend holding one manifest under its digest key and nothing else. -/
def exStoreDigestOnly : Store :=
  ⟨true, [(generate_manifest_key "repo" "sha256:aa", RVal.str (Bin.good exManifest))], []⟩

/-- A backend where digest `sha256:aa` is stored and aliased by the two tags
`v1` and `v2`, each with its own manifest key. -/
def exStoreTwoTags : Store :=
  ⟨true,
    [(generate_manifest_key "repo" "sha256:aa", RVal.str (Bin.good exManifest)),
      (generate_alias_key "repo" "sha256:aa", RVal.set ["v1", "v2"]),
      (generate_manifest_key "repo" "v1", RVal.str (Bin.good exManifest)),
      (generate_manifest_key "repo" "v2", RVal.str (Bin.good exManifest))], []⟩

/-- A backend holding a manifest whose stored bytes do not deserialize. -/
def exStoreBadBytes : Store :=
  ⟨true, [(generate_manifest_key "repo" "v1", RVal.str Bin.bad)], []⟩

/- ## Helper lemmas: the association list -/

theorem kvLookup_kvRemove_self (k : String) (kv : List (String × RVal)) :
    kvLookup k (kvRemove k kv) = none := by
  induction kv with
  | nil => rfl
  | cons p rest ih =>
    obtain ⟨k2, v⟩ := p
    by_cases h : k2 = k
    · simpa [kvRemove, h] using ih
    · simp [kvRemove, kvLookup, h, ih]

theorem kvLookup_kvRemove_ne (k k2 : String) (kv : List (String × RVal))
    (h : k2 ≠ k) : kvLookup k2 (kvRemove k kv) = kvLookup k2 kv := by
  induction kv with
  | nil => rfl
  | cons p rest ih =>
    obtain ⟨k3, v⟩ := p
    by_cases h3 : k3 = k
    · have h32 : k3 ≠ k2 := fun hc => h (hc ▸ h3)
      simp only [kvRemove, if_pos h3, kvLookup, if_neg h32]
      exact ih
    · by_cases h32 : k3 = k2
      · simp only [kvRemove, if_neg h3, kvLookup, if_pos h32]
      · simp only [kvRemove, if_neg h3, kvLookup, if_neg h32]
        exact ih

theorem kvLookup_kvSet_self (k : String) (v : RVal) (kv : List (String × RVal)) :
    kvLookup k (kvSet k v kv) = some v := by
  simp [kvSet, kvLookup]

theorem kvLookup_kvSet_ne (k k2 : String) (v : RVal) (kv : List (String × RVal))
    (h : k2 ≠ k) : kvLookup k2 (kvSet k v kv) = kvLookup k2 kv := by
  have hk : k ≠ k2 := fun hc => h hc.symm
  simp only [kvSet, kvLookup, if_neg hk]
  exact kvLookup_kvRemove_ne k k2 kv h

/- ## Helper lemmas: the reference grammars and the key scheme.
A valid tag contains no colon, a valid digest exactly one; every key of the
form `manifest::<n>::<x>::alias` forces at least two colons into the `<x>`
slot of a plain manifest key, which makes the two key families disjoint for
valid references. -/

theorem isTagStart_ne_colon (c : Char) (h : isTagStart c = true) : c ≠ ':' := by
  intro hc; subst hc; simp [isTagStart, Char.isAlphanum, Char.isAlpha,
    Char.isUpper, Char.isLower, Char.isDigit] at h

theorem isTagChar_ne_colon (c : Char) (h : isTagChar c = true) : c ≠ ':' := by
  intro hc; subst hc; simp [isTagChar, Char.isAlphanum, Char.isAlpha,
    Char.isUpper, Char.isLower, Char.isDigit] at h

theorem isAlgoChar_ne_colon (c : Char) (h : isAlgoChar c = true) : c ≠ ':' := by
  intro hc; subst hc; simp [isAlgoChar, Char.isLower, Char.isDigit] at h

theorem isEncChar_ne_colon (c : Char) (h : isEncChar c = true) : c ≠ ':' := by
  intro hc; subst hc; simp [isEncChar, Char.isAlphanum, Char.isAlpha,
    Char.isUpper, Char.isLower, Char.isDigit] at h

theorem count_colon_of_allEnc (l : List Char) (h : l.all isEncChar = true) :
    l.count ':' = 0 := by
  rw [List.count_eq_zero]
  intro hmem
  exact isEncChar_ne_colon ':' (List.all_eq_true.mp h ':' hmem) rfl

theorem tag_colonCount (s : String) (h : is_tag_name_valid s = true) :
    colonCount s = 0 := by
  unfold is_tag_name_valid at h
  unfold colonCount
  cases hd : s.data with
  | nil => simp
  | cons c cs =>
    rw [hd] at h
    simp only [Bool.and_eq_true] at h
    rw [List.count_cons]
    have h1 : c ≠ ':' := isTagStart_ne_colon c h.1.1
    have h1b : ¬ (':' = c) := fun hc => h1 hc.symm
    have h2 : cs.count ':' = 0 := by
      rw [List.count_eq_zero]
      intro hmem
      exact isTagChar_ne_colon ':' (List.all_eq_true.mp h.2 ':' hmem) rfl
    simp [h2, h1, h1b]

theorem digestTail_count (l : List Char) (h : digestTail l = true) :
    l.count ':' = 1 := by
  induction l using digestTail.induct with
  | case1 => simp [digestTail] at h
  | case2 rest2 =>
    rw [digestTail.eq_def] at h
    simp only [if_pos] at h
    simp only [Bool.and_eq_true] at h
    rw [List.count_cons]
    simp [count_colon_of_allEnc rest2 h.2]
  | case3 c2 rest2 hne halgo ih =>
    rw [digestTail.eq_def] at h
    simp only [if_neg hne, if_pos halgo] at h
    have hne2 : ¬ (':' = c2) := fun hc => hne hc.symm
    rw [List.count_cons, ih h]
    simp [hne, hne2]
  | case4 c2 hne halgo hsep =>
    rw [digestTail.eq_def] at h
    simp [hne, halgo, hsep] at h
  | case5 c2 hne halgo hsep c3 rest2 ih =>
    rw [digestTail.eq_def] at h
    simp only [if_neg hne, if_neg halgo, if_pos hsep, Bool.and_eq_true] at h
    have h3 : c3 ≠ ':' := isAlgoChar_ne_colon c3 h.1
    have h3b : ¬ (':' = c3) := fun hc => h3 hc.symm
    have h2b : ¬ (':' = c2) := fun hc => hne hc.symm
    rw [List.count_cons, List.count_cons, ih h.2]
    simp [hne, h3, h3b, h2b]
  | case6 c2 rest2 hne halgo hsep =>
    rw [digestTail.eq_def] at h
    simp [hne, halgo, hsep] at h

theorem digest_colonCount (s : String) (h : is_accepted_digest s = true) :
    colonCount s = 1 := by
  unfold is_accepted_digest at h
  unfold colonCount
  cases hd : s.data with
  | nil => rw [hd] at h; simp at h
  | cons c cs =>
    rw [hd] at h
    simp only [Bool.and_eq_true] at h
    have h1 : c ≠ ':' := isAlgoChar_ne_colon c h.1
    have h1b : ¬ (':' = c) := fun hc => h1 hc.symm
    rw [List.count_cons, digestTail_count cs h.2]
    simp [h1, h1b]

theorem tag_and_digest_impossible (s : String) :
    (is_tag_name_valid s && is_accepted_digest s) = false := by
  by_contra hc
  simp only [Bool.and_eq_true, Bool.not_eq_false] at hc
  have h0 := tag_colonCount s hc.1
  have h1 := digest_colonCount s hc.2
  rw [h0] at h1
  exact Nat.zero_ne_one h1

theorem digest_of_tag_false (s : String) (h : is_tag_name_valid s = true) :
    is_accepted_digest s = false := by
  have := tag_and_digest_impossible s
  rwa [h, Bool.true_and] at this

theorem tag_ne_digest (t d : String) (ht : is_tag_name_valid t = true)
    (hd : is_accepted_digest d = true) : t ≠ d := by
  intro hc
  subst hc
  have h0 := tag_colonCount t ht
  have h1 := digest_colonCount t hd
  rw [h0] at h1
  exact Nat.zero_ne_one h1

theorem generate_manifest_key_data (n a : String) :
    (generate_manifest_key n a).data =
      (("manifest::".data ++ n.data) ++ "::".data) ++ a.data := by
  unfold generate_manifest_key
  rw [String.data_append, String.data_append, String.data_append]

theorem generate_alias_key_data (n a : String) :
    (generate_alias_key n a).data =
      ((("manifest::".data ++ n.data) ++ "::".data) ++ a.data) ++ "::alias".data := by
  unfold generate_alias_key
  rw [String.data_append, String.data_append, String.data_append, String.data_append]

theorem generate_manifest_key_inj (n a b : String)
    (h : generate_manifest_key n a = generate_manifest_key n b) : a = b := by
  have hd := congrArg String.data h
  rw [generate_manifest_key_data, generate_manifest_key_data] at hd
  exact String.ext (List.append_cancel_left hd)

theorem generate_manifest_key_ne (n a b : String) (h : a ≠ b) :
    generate_manifest_key n a ≠ generate_manifest_key n b :=
  fun hc => h (generate_manifest_key_inj n a b hc)

theorem generate_alias_key_inj (n a b : String)
    (h : generate_alias_key n a = generate_alias_key n b) : a = b := by
  have hd := congrArg String.data h
  rw [generate_alias_key_data, generate_alias_key_data] at hd
  have h1 := List.append_cancel_right hd
  exact String.ext (List.append_cancel_left h1)

theorem generate_manifest_key_ne_alias (n1 n2 a b : String)
    (hcount : colonCount a ≤ 1) (hn : n1 = n2) :
    generate_manifest_key n1 a ≠ generate_alias_key n2 b := by
  subst hn
  intro hc
  have hd := congrArg String.data hc
  rw [generate_manifest_key_data, generate_alias_key_data,
    List.append_assoc (("manifest::".data ++ n1.data) ++ "::".data) b.data "::alias".data] at hd
  have h1 : a.data = b.data ++ "::alias".data := List.append_cancel_left hd
  have h2 : a.data.count ':' = b.data.count ':' + "::alias".data.count ':' := by
    rw [h1, List.count_append]
  have h3 : "::alias".data.count ':' = 2 := by decide
  rw [h3] at h2
  unfold colonCount at hcount
  omega

/- ## Helper lemmas: backend command behavior -/

theorem pushLog_conn (op : Op) (st : Store) : (pushLog op st).conn = st.conn := rfl

theorem pushLog_kv (op : Op) (st : Store) : (pushLog op st).kv = st.kv := rfl

theorem existsCmd_spec (k : String) (st : Store) (h : st.conn = true) :
    existsCmd k st =
      (Except.ok (kvLookup k st.kv).isSome, pushLog (Op.existsKey k) st) := by
  simp [existsCmd, pushLog, h]

theorem existsCmd_down (k : String) (st : Store) (h : st.conn = false) :
    existsCmd k st = (Except.error "connection refused", pushLog (Op.existsKey k) st) := by
  simp [existsCmd, pushLog, h]

theorem getCmd_snd (k : String) (st : Store) :
    (getCmd k st).2 = pushLog (Op.get k) st := rfl

theorem smembersCmd_snd (k : String) (st : Store) :
    (smembersCmd k st).2 = pushLog (Op.smembers k) st := rfl

theorem conGetManifest_snd (k : String) (st : Store) :
    (conGetManifest k st).2 = pushLog (Op.get k) st := by
  unfold conGetManifest
  rcases h : getCmd k st with ⟨e, s⟩
  have hs : s = pushLog (Op.get k) st := by
    have h2 := congrArg Prod.snd h
    exact h2.symm
  cases e <;> simpa using hs

theorem roext_refl (st : Store) : ROExt st st :=
  ⟨rfl, rfl, [], by simp, rfl⟩

theorem roext_trans (a b c : Store) (h1 : ROExt a b) (h2 : ROExt b c) : ROExt a c := by
  obtain ⟨hc1, hk1, ops1, hl1, hr1⟩ := h1
  obtain ⟨hc2, hk2, ops2, hl2, hr2⟩ := h2
  refine ⟨hc2.trans hc1, hk2.trans hk1, ops1 ++ ops2, ?_, ?_⟩
  · rw [hl2, hl1, List.append_assoc]
  · simp only [List.all_append, hr1, hr2, Bool.and_self]

theorem roext_pushLog (op : Op) (st : Store) (h : op.isRead = true) :
    ROExt st (pushLog op st) :=
  ⟨rfl, rfl, [op], rfl, by simp [h]⟩

theorem manifest_exist_spec (n r : String) (st : Store) (h : st.conn = true) :
    manifest_exist n r st =
      (Out.ok ((kvLookup (generate_manifest_key n r) st.kv).isSome
          || (kvLookup (generate_alias_key n r) st.kv).isSome),
        pushLog (Op.existsKey (generate_alias_key n r))
          (pushLog (Op.existsKey (generate_manifest_key n r)) st)) := by
  simp [manifest_exist, existsCmd, pushLog, h]

theorem manifest_exist_down (n r : String) (st : Store) (h : st.conn = false) :
    manifest_exist n r st =
      (Out.crash "connection with redis",
        pushLog (Op.existsKey (generate_manifest_key n r)) st) := by
  simp [manifest_exist, existsCmd, pushLog, h]

theorem roext_manifest_exist (n r : String) (st : Store) :
    ROExt st (manifest_exist n r st).2 := by
  cases hc : st.conn
  · rw [manifest_exist_down n r st hc]
    exact roext_pushLog _ _ rfl
  · rw [manifest_exist_spec n r st hc]
    exact roext_trans st (pushLog (Op.existsKey (generate_manifest_key n r)) st) _
      (roext_pushLog _ _ rfl) (roext_pushLog _ _ rfl)

theorem roext_findFirstLive (n : String) (ms : List String) :
    ∀ st : Store, ROExt st (findFirstLive n ms st).2 := by
  induction ms with
  | nil => intro st; exact roext_refl st
  | cons t ts ih =>
    intro st
    unfold findFirstLive
    rcases h : manifest_exist n t st with ⟨o, s⟩
    have hro : ROExt st s := by
      have := roext_manifest_exist n t st
      rwa [h] at this
    cases o with
    | ok b =>
      cases b
      · simpa using roext_trans _ _ _ hro (ih s)
      · simpa using hro
    | err e => simpa using hro
    | crash e => simpa using hro
    | timeout => simpa using hro

theorem roext_manifest (fuel : Nat) :
    ∀ (n r : String) (st : Store), ROExt st (manifest fuel n r st).2 := by
  induction fuel with
  | zero => intro n r st; exact roext_refl st
  | succ fuel ih =>
    intro n r st
    unfold manifest
    rcases h1 : conGetManifest (generate_manifest_key n r) st with ⟨o1, s1⟩
    have hs1 : s1 = pushLog (Op.get (generate_manifest_key n r)) st := by
      have := conGetManifest_snd (generate_manifest_key n r) st
      rw [h1] at this
      exact this
    have hro1 : ROExt st s1 := by rw [hs1]; exact roext_pushLog _ _ rfl
    cases o1 with
    | ok m => simpa using hro1
    | crash e => simpa using hro1
    | timeout => simpa using hro1
    | err e =>
      dsimp only
      generalize h2 : smembersCmd (generate_alias_key n r) s1 = p2
      obtain ⟨e2, s2⟩ := p2
      have hs2 : s2 = pushLog (Op.smembers (generate_alias_key n r)) s1 :=
        (congrArg Prod.snd h2).symm
      have hro2 : ROExt st s2 := by
        rw [hs2]
        exact roext_trans _ _ _ hro1 (roext_pushLog _ _ rfl)
      cases e2 with
      | error e3 => simpa using hro2
      | ok als =>
        dsimp only
        generalize h3 : findFirstLive n als s2 = p3
        obtain ⟨o3, s3⟩ := p3
        have hro3 : ROExt st s3 := by
          have := roext_findFirstLive n als s2
          rw [h3] at this
          exact roext_trans _ _ _ hro2 this
        cases o3 with
        | ok t? =>
          cases t? with
          | none => simpa using hro3
          | some t => simpa using roext_trans _ _ _ hro3 (ih n t s3)
        | err e3 => simpa using hro3
        | crash e3 => simpa using hro3
        | timeout => simpa using hro3

/- ## Helper lemmas: behavior of the mutating commands and of direct lookups -/

theorem getdelCmd_found (k : String) (st : Store) (b : Bin) (hconn : st.conn = true)
    (hl : kvLookup k st.kv = some (RVal.str b)) :
    getdelCmd k st =
      (Except.ok (Value.data b), ⟨true, kvRemove k st.kv, st.log ++ [Op.getdel k]⟩) := by
  simp [getdelCmd, pushLog, hconn, hl]

theorem getdelCmd_missing (k : String) (st : Store) (hconn : st.conn = true)
    (hl : kvLookup k st.kv = none) :
    getdelCmd k st = (Except.ok Value.nil, pushLog (Op.getdel k) st) := by
  simp [getdelCmd, pushLog, hconn, hl]

theorem delCmd_found (k : String) (st : Store) (v : RVal) (hconn : st.conn = true)
    (hl : kvLookup k st.kv = some v) :
    delCmd k st = (Except.ok 1, ⟨true, kvRemove k st.kv, st.log ++ [Op.del k]⟩) := by
  simp [delCmd, pushLog, hconn, hl]

theorem delCmd_missing (k : String) (st : Store) (hconn : st.conn = true)
    (hl : kvLookup k st.kv = none) :
    delCmd k st = (Except.ok 0, pushLog (Op.del k) st) := by
  simp [delCmd, pushLog, hconn, hl]

theorem sremCmd_found_keep (k member : String) (st : Store) (ms : List String)
    (hconn : st.conn = true) (hl : kvLookup k st.kv = some (RVal.set ms))
    (hmem : member ∈ ms) (hrest : ms.erase member ≠ []) :
    sremCmd k member st =
      (Except.ok 1,
        ⟨true, kvSet k (RVal.set (ms.erase member)) st.kv, st.log ++ [Op.srem k member]⟩) := by
  simp [sremCmd, pushLog, hconn, hl, hmem, hrest]

theorem sremCmd_found_drop (k member : String) (st : Store) (ms : List String)
    (hconn : st.conn = true) (hl : kvLookup k st.kv = some (RVal.set ms))
    (hmem : member ∈ ms) (hrest : ms.erase member = []) :
    sremCmd k member st =
      (Except.ok 1, ⟨true, kvRemove k st.kv, st.log ++ [Op.srem k member]⟩) := by
  simp [sremCmd, pushLog, hconn, hl, hmem, hrest]

theorem smembersCmd_missing (k : String) (st : Store) (hconn : st.conn = true)
    (hl : kvLookup k st.kv = none) :
    smembersCmd k st = (Except.ok [], pushLog (Op.smembers k) st) := by
  simp [smembersCmd, pushLog, hconn, hl]

theorem smembersCmd_found (k : String) (st : Store) (ms : List String)
    (hconn : st.conn = true) (hl : kvLookup k st.kv = some (RVal.set ms)) :
    smembersCmd k st = (Except.ok ms, pushLog (Op.smembers k) st) := by
  simp [smembersCmd, pushLog, hconn, hl]

/-- A direct hit of the manifest key makes Resolve return that manifest at
once, whatever the remaining fuel. -/
theorem manifest_direct (fuel : Nat) (n r : String) (st : Store) (m : Manifest)
    (hconn : st.conn = true)
    (hl : kvLookup (generate_manifest_key n r) st.kv = some (RVal.str (Bin.good m))) :
    manifest (fuel + 1) n r st =
      (Out.ok m, pushLog (Op.get (generate_manifest_key n r)) st) := by
  simp [manifest, conGetManifest, getCmd, from_redis_value, pushLog, hconn, hl]

/-- `delete` on a reference with neither a manifest key nor an alias-set key
returns zero. -/
theorem delete_both_missing (n r : String) (st : Store) (hconn : st.conn = true)
    (h1 : kvLookup (generate_manifest_key n r) st.kv = none)
    (h2 : kvLookup (generate_alias_key n r) st.kv = none) :
    (delete n r st).1 = Out.ok 0 := by
  simp [delete, getdelCmd, from_redis_value, search_alias_and_delete_it,
    smembersCmd, delete_alias, delete_alias_go, delete_alias_key, delCmd, i8add,
    pushLog, hconn, h1, h2]

theorem kvLookup_append_none (k : String) (a b : List (String × RVal))
    (h : kvLookup k a = none) : kvLookup k (a ++ b) = kvLookup k b := by
  induction a with
  | nil => rfl
  | cons p rest ih =>
    obtain ⟨k2, v⟩ := p
    by_cases h2 : k2 = k
    · simp [kvLookup, h2] at h
    · simp only [kvLookup, if_neg h2] at h
      simp only [List.cons_append, kvLookup, if_neg h2]
      exact ih h

theorem kvLookup_append_some (k : String) (a b : List (String × RVal)) (v : RVal)
    (h : kvLookup k a = some v) : kvLookup k (a ++ b) = some v := by
  induction a with
  | nil => simp [kvLookup] at h
  | cons p rest ih =>
    obtain ⟨k2, v2⟩ := p
    by_cases h2 : k2 = k
    · simp only [kvLookup, if_pos h2] at h
      simp only [List.cons_append, kvLookup, if_pos h2]
      exact h
    · simp only [kvLookup, if_neg h2] at h
      simp only [List.cons_append, kvLookup, if_neg h2]
      exact ih h

/- ## Helper lemmas: keys of valid references and the canonical store -/

theorem tag_colonCount_le (t : String) (ht : is_tag_name_valid t = true) :
    colonCount t ≤ 1 := by
  rw [tag_colonCount t ht]
  omega

theorem digest_colonCount_le (d : String) (hd : is_accepted_digest d = true) :
    colonCount d ≤ 1 := by
  rw [digest_colonCount d hd]

theorem mk_tag_ne_mk_digest (n t d : String) (ht : is_tag_name_valid t = true)
    (hd : is_accepted_digest d = true) :
    generate_manifest_key n t ≠ generate_manifest_key n d :=
  generate_manifest_key_ne n t d (tag_ne_digest t d ht hd)

theorem kvLookup_tagEntries_mem (n t : String) (m : Manifest) (ts : List String)
    (hmem : t ∈ ts) :
    kvLookup (generate_manifest_key n t)
      (ts.map fun t2 => (generate_manifest_key n t2, RVal.str (Bin.good m))) =
      some (RVal.str (Bin.good m)) := by
  induction ts with
  | nil => simp at hmem
  | cons t2 rest ih =>
    by_cases hk : generate_manifest_key n t2 = generate_manifest_key n t
    · simp [kvLookup, hk]
    · have hmem2 : t ∈ rest := by
        rcases List.mem_cons.mp hmem with h | h
        · exact absurd (h ▸ rfl) hk
        · exact h
      simp only [List.map_cons, kvLookup, if_neg hk]
      exact ih hmem2

theorem kvLookup_tagEntries_none (n k : String) (m : Manifest) (ts : List String)
    (h : ∀ t ∈ ts, generate_manifest_key n t ≠ k) :
    kvLookup k (ts.map fun t2 => (generate_manifest_key n t2, RVal.str (Bin.good m))) =
      none := by
  induction ts with
  | nil => rfl
  | cons t2 rest ih =>
    simp only [List.map_cons, kvLookup, if_neg (h t2 (List.mem_cons_self t2 rest))]
    exact ih (fun t hmem => h t (List.mem_cons_of_mem t2 hmem))

theorem kvLookup_canonicalKv_digest (n d : String) (m : Manifest) (ts : List String) :
    kvLookup (generate_manifest_key n d) (canonicalKv n d m ts) =
      some (RVal.str (Bin.good m)) := by
  cases ts <;> simp [canonicalKv, kvLookup]

theorem kvLookup_canonicalKv_alias (n d : String) (m : Manifest) (ts : List String)
    (hd : is_accepted_digest d = true) (hne : ts ≠ []) :
    kvLookup (generate_alias_key n d) (canonicalKv n d m ts) = some (RVal.set ts) := by
  have h1 : generate_manifest_key n d ≠ generate_alias_key n d :=
    generate_manifest_key_ne_alias n n d d (digest_colonCount_le d hd) rfl
  cases ts with
  | nil => exact absurd rfl hne
  | cons t0 rest => simp [canonicalKv, kvLookup, if_neg h1]

theorem kvLookup_canonicalKv_tag (n d t : String) (m : Manifest) (ts : List String)
    (hd : is_accepted_digest d = true) (ht : is_tag_name_valid t = true)
    (hmem : t ∈ ts) :
    kvLookup (generate_manifest_key n t) (canonicalKv n d m ts) =
      some (RVal.str (Bin.good m)) := by
  have h1 : generate_manifest_key n d ≠ generate_manifest_key n t :=
    fun hc => mk_tag_ne_mk_digest n t d ht hd hc.symm
  have h2 : generate_alias_key n d ≠ generate_manifest_key n t :=
    fun hc => generate_manifest_key_ne_alias n n t d (tag_colonCount_le t ht) rfl hc.symm
  cases ts with
  | nil => simp at hmem
  | cons t0 rest =>
    simp only [canonicalKv, kvLookup, if_neg h1, if_neg h2]
    exact kvLookup_tagEntries_mem n t m (t0 :: rest) hmem

theorem kvLookup_canonicalKv_aktag (n d t : String) (m : Manifest) (ts : List String)
    (hd : is_accepted_digest d = true) (ht : is_tag_name_valid t = true)
    (hts : ∀ t2 ∈ ts, is_tag_name_valid t2 = true) :
    kvLookup (generate_alias_key n t) (canonicalKv n d m ts) = none := by
  have h1 : generate_manifest_key n d ≠ generate_alias_key n t :=
    generate_manifest_key_ne_alias n n d t (digest_colonCount_le d hd) rfl
  have h2 : generate_alias_key n d ≠ generate_alias_key n t := by
    intro hc
    exact tag_ne_digest t d ht hd ((generate_alias_key_inj n d t hc).symm)
  have h3 : kvLookup (generate_alias_key n t)
      (ts.map fun t2 => (generate_manifest_key n t2, RVal.str (Bin.good m))) = none :=
    kvLookup_tagEntries_none n _ m ts
      (fun t2 hmem => generate_manifest_key_ne_alias n n t2 t
        (tag_colonCount_le t2 (hts t2 hmem)) rfl)
  cases ts with
  | nil => simp [canonicalKv, kvLookup, h1]
  | cons t0 rest =>
    simp only [canonicalKv, kvLookup, if_neg h1, if_neg h2]
    exact h3

/- ## Helper lemmas: the deletion cascade -/

theorem delete_alias_go_spec (n : String) : ∀ (ts : List String) (sum : Int) (st : Store),
    st.conn = true → ts.Nodup → 0 ≤ sum → sum + ts.length ≤ 127 →
    (∀ t ∈ ts, (kvLookup (generate_manifest_key n t) st.kv).isSome = true) →
    (delete_alias_go n sum ts st).1 = Out.ok (sum + ts.length) ∧
    (delete_alias_go n sum ts st).2.conn = true ∧
    (∀ k, (∀ t ∈ ts, k ≠ generate_manifest_key n t) →
      kvLookup k (delete_alias_go n sum ts st).2.kv = kvLookup k st.kv) ∧
    (∀ t ∈ ts, kvLookup (generate_manifest_key n t)
      (delete_alias_go n sum ts st).2.kv = none) := by
  intro ts
  induction ts with
  | nil =>
    intro sum st h1 h2 h3 h4 h5
    exact ⟨by simp [delete_alias_go], h1, fun k hk => rfl,
      fun t ht => absurd ht (List.not_mem_nil t)⟩
  | cons t ts ih =>
    intro sum st hconn hnd hge hle hpres
    rw [List.length_cons] at hle
    push_cast at hle
    obtain ⟨v, hv⟩ := Option.isSome_iff_exists.mp (hpres t (List.mem_cons_self t ts))
    have hdel : delCmd (generate_manifest_key n t) st =
        (Except.ok 1,
          ⟨true, kvRemove (generate_manifest_key n t) st.kv,
            st.log ++ [Op.del (generate_manifest_key n t)]⟩) :=
      delCmd_found _ st v hconn hv
    have htn : t ∉ ts := (List.nodup_cons.mp hnd).1
    have hnd2 : ts.Nodup := (List.nodup_cons.mp hnd).2
    have hpres2 : ∀ t2 ∈ ts,
        (kvLookup (generate_manifest_key n t2)
          (⟨true, kvRemove (generate_manifest_key n t) st.kv,
            st.log ++ [Op.del (generate_manifest_key n t)]⟩ : Store).kv).isSome = true := by
      intro t2 hmem
      have hne : t2 ≠ t := fun hc => htn (hc ▸ hmem)
      have hkne : generate_manifest_key n t2 ≠ generate_manifest_key n t :=
        generate_manifest_key_ne n t2 t hne
      show (kvLookup (generate_manifest_key n t2)
        (kvRemove (generate_manifest_key n t) st.kv)).isSome = true
      rw [kvLookup_kvRemove_ne _ _ _ hkne]
      exact hpres t2 (List.mem_cons_of_mem t hmem)
    have hnn : (0 : Int) ≤ (ts.length : Int) := Int.natCast_nonneg ts.length
    have hadd : i8add sum 1 = some (sum + 1) := by
      unfold i8add
      rw [if_pos]
      exact ⟨by omega, by omega⟩
    obtain ⟨ih1, ih2, ih3, ih4⟩ := ih (sum + 1) _ rfl hnd2 (by omega) (by omega) hpres2
    simp only [delete_alias_go]
    rw [hdel]
    dsimp only
    rw [hadd]
    dsimp only
    refine ⟨?_, ih2, ?_, ?_⟩
    · rw [ih1]
      congr 1
      rw [List.length_cons]
      push_cast
      ring
    · intro k hk
      rw [ih3 k (fun t2 hmem => hk t2 (List.mem_cons_of_mem t hmem))]
      show kvLookup k (kvRemove (generate_manifest_key n t) st.kv) = kvLookup k st.kv
      exact kvLookup_kvRemove_ne _ _ _ (hk t (List.mem_cons_self t ts))
    · intro t2 hmem
      rcases List.mem_cons.mp hmem with h | h
      · subst h
        have hk : ∀ t3 ∈ ts, generate_manifest_key n t2 ≠ generate_manifest_key n t3 :=
          fun t3 hmem3 =>
            generate_manifest_key_ne n t2 t3 (fun hc => htn (hc ▸ hmem3))
        rw [ih3 _ hk]
        exact kvLookup_kvRemove_self _ _
      · exact ih4 t2 h

theorem delete_alias_spec (n : String) (ts : List String) (st : Store)
    (hconn : st.conn = true) (hnd : ts.Nodup) (hlen : ts.length ≤ 127)
    (hpres : ∀ t ∈ ts, (kvLookup (generate_manifest_key n t) st.kv).isSome = true) :
    (delete_alias n ts st).1 = Out.ok (ts.length : Int) ∧
    (delete_alias n ts st).2.conn = true ∧
    (∀ k, (∀ t ∈ ts, k ≠ generate_manifest_key n t) →
      kvLookup k (delete_alias n ts st).2.kv = kvLookup k st.kv) ∧
    (∀ t ∈ ts, kvLookup (generate_manifest_key n t) (delete_alias n ts st).2.kv = none) := by
  obtain ⟨h1, h2, h3, h4⟩ :=
    delete_alias_go_spec n ts 0 st hconn hnd (by omega) (by omega) hpres
  simp only [delete_alias]
  refine ⟨?_, h2, h3, h4⟩
  rw [h1]
  congr 1
  omega

theorem search_alias_missing (n r : String) (st : Store) (hconn : st.conn = true)
    (hak : kvLookup (generate_alias_key n r) st.kv = none) :
    (search_alias_and_delete_it n r st).1 = Out.ok 0 ∧
    (search_alias_and_delete_it n r st).2.conn = true ∧
    (∀ k, kvLookup k (search_alias_and_delete_it n r st).2.kv = kvLookup k st.kv) := by
  have hsm : smembersCmd (generate_alias_key n r) st =
      (Except.ok [], pushLog (Op.smembers (generate_alias_key n r)) st) :=
    smembersCmd_missing _ st hconn hak
  have hdk : delCmd (generate_alias_key n r)
      (pushLog (Op.smembers (generate_alias_key n r)) st) =
      (Except.ok 0, pushLog (Op.del (generate_alias_key n r))
        (pushLog (Op.smembers (generate_alias_key n r)) st)) :=
    delCmd_missing _ _ hconn hak
  have hadd : i8add 0 0 = some 0 := by decide
  simp only [search_alias_and_delete_it]
  rw [hsm]
  dsimp only [delete_alias, delete_alias_go]
  simp only [delete_alias_key]
  rw [hdk]
  dsimp only
  rw [hadd]
  exact ⟨rfl, hconn, fun k => rfl⟩

theorem search_alias_spec (n r : String) (st : Store) (ms : List String)
    (hconn : st.conn = true)
    (hak : kvLookup (generate_alias_key n r) st.kv = some (RVal.set ms))
    (hnd : ms.Nodup)
    (hlen : ms.length ≤ 126)
    (hpres : ∀ t ∈ ms, (kvLookup (generate_manifest_key n t) st.kv).isSome = true)
    (hne : ∀ t ∈ ms, generate_alias_key n r ≠ generate_manifest_key n t) :
    (search_alias_and_delete_it n r st).1 = Out.ok ((ms.length : Int) + 1) ∧
    (search_alias_and_delete_it n r st).2.conn = true ∧
    (∀ k, (∀ t ∈ ms, k ≠ generate_manifest_key n t) → k ≠ generate_alias_key n r →
      kvLookup k (search_alias_and_delete_it n r st).2.kv = kvLookup k st.kv) ∧
    kvLookup (generate_alias_key n r) (search_alias_and_delete_it n r st).2.kv = none ∧
    (∀ t ∈ ms, kvLookup (generate_manifest_key n t)
      (search_alias_and_delete_it n r st).2.kv = none) := by
  have hsm : smembersCmd (generate_alias_key n r) st =
      (Except.ok ms, pushLog (Op.smembers (generate_alias_key n r)) st) :=
    smembersCmd_found _ st ms hconn hak
  have hpres2 : ∀ t ∈ ms, (kvLookup (generate_manifest_key n t)
      (pushLog (Op.smembers (generate_alias_key n r)) st).kv).isSome = true := hpres
  obtain ⟨da1, da2, da3, da4⟩ :=
    delete_alias_spec n ms (pushLog (Op.smembers (generate_alias_key n r)) st)
      (by rw [pushLog_conn]; exact hconn) hnd (by omega) hpres2
  simp only [search_alias_and_delete_it]
  rw [hsm]
  dsimp only
  generalize hda : delete_alias n ms
    (pushLog (Op.smembers (generate_alias_key n r)) st) = p at da1 da2 da3 da4 ⊢
  obtain ⟨o2, st2⟩ := p
  simp only at da1 da2 da3 da4
  rw [da1]
  dsimp only
  have hlk : kvLookup (generate_alias_key n r) st2.kv = some (RVal.set ms) := by
    rw [da3 _ hne]
    exact hak
  have hdk : delCmd (generate_alias_key n r) st2 =
      (Except.ok 1,
        ⟨true, kvRemove (generate_alias_key n r) st2.kv,
          st2.log ++ [Op.del (generate_alias_key n r)]⟩) :=
    delCmd_found _ st2 _ da2 hlk
  simp only [delete_alias_key]
  rw [hdk]
  dsimp only
  have hadd : i8add (ms.length : Int) 1 = some ((ms.length : Int) + 1) := by
    unfold i8add
    rw [if_pos]
    have hnn : (0 : Int) ≤ (ms.length : Int) := Int.natCast_nonneg ms.length
    exact ⟨by omega, by omega⟩
  rw [hadd]
  dsimp only
  refine ⟨rfl, rfl, ?_, ?_, ?_⟩
  · intro k hk1 hk2
    show kvLookup k (kvRemove (generate_alias_key n r) st2.kv) = kvLookup k st.kv
    rw [kvLookup_kvRemove_ne _ _ _ hk2]
    exact da3 k hk1
  · exact kvLookup_kvRemove_self _ _
  · intro t hmem
    have h1 : generate_manifest_key n t ≠ generate_alias_key n r :=
      fun hc => hne t hmem hc.symm
    show kvLookup (generate_manifest_key n t)
      (kvRemove (generate_alias_key n r) st2.kv) = none
    rw [kvLookup_kvRemove_ne _ _ _ h1]
    exact da4 t hmem

theorem delete_digest_canonical (n d : String) (m : Manifest) (ts : List String)
    (lg : List Op) (hd : is_accepted_digest d = true)
    (hts : ∀ t ∈ ts, is_tag_name_valid t = true) (hnd : ts.Nodup)
    (hlen : ts.length ≤ 126) :
    (delete n d ⟨true, canonicalKv n d m ts, lg⟩).1 =
      Out.ok ((ts.length : Int) + (if ts.isEmpty then 0 else 1)) ∧
    (delete n d ⟨true, canonicalKv n d m ts, lg⟩).2.conn = true ∧
    kvLookup (generate_manifest_key n d)
      (delete n d ⟨true, canonicalKv n d m ts, lg⟩).2.kv = none ∧
    kvLookup (generate_alias_key n d)
      (delete n d ⟨true, canonicalKv n d m ts, lg⟩).2.kv = none := by
  have hmkak : generate_manifest_key n d ≠ generate_alias_key n d :=
    generate_manifest_key_ne_alias n n d d (digest_colonCount_le d hd) rfl
  have hgd : getdelCmd (generate_manifest_key n d)
      (⟨true, canonicalKv n d m ts, lg⟩ : Store) =
      (Except.ok (Value.data (Bin.good m)),
        ⟨true, kvRemove (generate_manifest_key n d) (canonicalKv n d m ts),
          lg ++ [Op.getdel (generate_manifest_key n d)]⟩) :=
    getdelCmd_found _ _ _ rfl (kvLookup_canonicalKv_digest n d m ts)
  simp only [delete]
  rw [hgd]
  dsimp only [from_redis_value]
  simp only [hd, if_true]
  cases ts with
  | nil =>
    have hak : kvLookup (generate_alias_key n d)
        (kvRemove (generate_manifest_key n d) (canonicalKv n d m [])) = none := by
      rw [kvLookup_kvRemove_ne _ _ _ (fun hc => hmkak hc.symm)]
      simp [canonicalKv, kvLookup, hmkak]
    obtain ⟨s1, s2, s3⟩ := search_alias_missing n d
      (⟨true, kvRemove (generate_manifest_key n d) (canonicalKv n d m []),
        lg ++ [Op.getdel (generate_manifest_key n d)]⟩ : Store) rfl hak
    generalize hsa : search_alias_and_delete_it n d
      (⟨true, kvRemove (generate_manifest_key n d) (canonicalKv n d m []),
        lg ++ [Op.getdel (generate_manifest_key n d)]⟩ : Store) = p at s1 s2 s3 ⊢
    obtain ⟨o, st2⟩ := p
    simp only at s1 s2 s3
    rw [s1]
    dsimp only
    refine ⟨by simp, s2, ?_, ?_⟩
    · rw [s3]
      exact kvLookup_kvRemove_self _ _
    · rw [s3]
      exact hak
  | cons t0 rest =>
    have hak : kvLookup (generate_alias_key n d)
        (kvRemove (generate_manifest_key n d) (canonicalKv n d m (t0 :: rest))) =
        some (RVal.set (t0 :: rest)) := by
      rw [kvLookup_kvRemove_ne _ _ _ (fun hc => hmkak hc.symm)]
      exact kvLookup_canonicalKv_alias n d m (t0 :: rest) hd (by simp)
    have hpres : ∀ t ∈ t0 :: rest, (kvLookup (generate_manifest_key n t)
        (kvRemove (generate_manifest_key n d) (canonicalKv n d m (t0 :: rest)))).isSome
          = true := by
      intro t hmem
      rw [kvLookup_kvRemove_ne _ _ _ (mk_tag_ne_mk_digest n t d (hts t hmem) hd)]
      rw [kvLookup_canonicalKv_tag n d t m (t0 :: rest) hd (hts t hmem) hmem]
      rfl
    have hne : ∀ t ∈ t0 :: rest, generate_alias_key n d ≠ generate_manifest_key n t :=
      fun t hmem hc =>
        generate_manifest_key_ne_alias n n t d (tag_colonCount_le t (hts t hmem)) rfl hc.symm
    obtain ⟨s1, s2, s3, s4, s5⟩ := search_alias_spec n d
      (⟨true, kvRemove (generate_manifest_key n d) (canonicalKv n d m (t0 :: rest)),
        lg ++ [Op.getdel (generate_manifest_key n d)]⟩ : Store) (t0 :: rest)
      rfl hak hnd hlen hpres hne
    generalize hsa : search_alias_and_delete_it n d
      (⟨true, kvRemove (generate_manifest_key n d) (canonicalKv n d m (t0 :: rest)),
        lg ++ [Op.getdel (generate_manifest_key n d)]⟩ : Store) = p at s1 s2 s3 s4 s5 ⊢
    obtain ⟨o, st2⟩ := p
    simp only at s1 s2 s3 s4 s5
    rw [s1]
    dsimp only
    refine ⟨by simp, s2, ?_, s4⟩
    have hknd : ∀ t ∈ t0 :: rest, generate_manifest_key n d ≠ generate_manifest_key n t :=
      fun t hmem hc => mk_tag_ne_mk_digest n t d (hts t hmem) hd hc.symm
    rw [s3 _ hknd hmkak]
    exact kvLookup_kvRemove_self _ _

theorem delete_tag_canonical (n d t : String) (m : Manifest) (ts : List String)
    (lg : List Op) (hd : is_accepted_digest d = true)
    (hts : ∀ t2 ∈ ts, is_tag_name_valid t2 = true)
    (hmem : t ∈ ts) (hm : m.config.digest = d) :
    (delete n t ⟨true, canonicalKv n d m ts, lg⟩).1 = Out.ok 1 ∧
    (delete n t ⟨true, canonicalKv n d m ts, lg⟩).2.conn = true ∧
    kvLookup (generate_manifest_key n t)
      (delete n t ⟨true, canonicalKv n d m ts, lg⟩).2.kv = none ∧
    kvLookup (generate_alias_key n t)
      (delete n t ⟨true, canonicalKv n d m ts, lg⟩).2.kv = none ∧
    (∀ t2 ∈ ts, t2 ≠ t → kvLookup (generate_manifest_key n t2)
      (delete n t ⟨true, canonicalKv n d m ts, lg⟩).2.kv = some (RVal.str (Bin.good m))) ∧
    kvLookup (generate_manifest_key n d)
      (delete n t ⟨true, canonicalKv n d m ts, lg⟩).2.kv = some (RVal.str (Bin.good m)) := by
  have ht : is_tag_name_valid t = true := hts t hmem
  have e1 : generate_manifest_key n t ≠ generate_alias_key n d :=
    generate_manifest_key_ne_alias n n t d (tag_colonCount_le t ht) rfl
  have e2 : generate_alias_key n t ≠ generate_alias_key n d :=
    fun hc => tag_ne_digest t d ht hd (generate_alias_key_inj n t d hc)
  have e3 : generate_alias_key n t ≠ generate_manifest_key n t :=
    fun hc => generate_manifest_key_ne_alias n n t t (tag_colonCount_le t ht) rfl hc.symm
  have e4 : generate_manifest_key n d ≠ generate_alias_key n d :=
    generate_manifest_key_ne_alias n n d d (digest_colonCount_le d hd) rfl
  have e5 : generate_manifest_key n d ≠ generate_manifest_key n t :=
    fun hc => mk_tag_ne_mk_digest n t d ht hd hc.symm
  have hgd : getdelCmd (generate_manifest_key n t)
      (⟨true, canonicalKv n d m ts, lg⟩ : Store) =
      (Except.ok (Value.data (Bin.good m)),
        ⟨true, kvRemove (generate_manifest_key n t) (canonicalKv n d m ts),
          lg ++ [Op.getdel (generate_manifest_key n t)]⟩) :=
    getdelCmd_found _ _ _ rfl (kvLookup_canonicalKv_tag n d t m ts hd ht hmem)
  have hak1 : kvLookup (generate_alias_key n d)
      (kvRemove (generate_manifest_key n t) (canonicalKv n d m ts)) =
      some (RVal.set ts) := by
    rw [kvLookup_kvRemove_ne _ _ _ (fun hc => e1 hc.symm)]
    exact kvLookup_canonicalKv_alias n d m ts hd (List.ne_nil_of_mem hmem)
  have hdig : is_accepted_digest t = false := digest_of_tag_false t ht
  simp only [delete]
  rw [hgd]
  dsimp only [from_redis_value]
  simp only [hdig, Bool.false_eq_true, if_false]
  simp only [remove_tag_relation_from_digest]
  rw [hm]
  by_cases hE : ts.erase t = []
  · rw [sremCmd_found_drop _ _ _ _ rfl hak1 hmem hE]
    dsimp only
    refine ⟨rfl, rfl, ?_, ?_, ?_, ?_⟩
    · rw [kvLookup_kvRemove_ne _ _ _ e1]
      exact kvLookup_kvRemove_self _ _
    · rw [kvLookup_kvRemove_ne _ _ _ e2, kvLookup_kvRemove_ne _ _ _ e3]
      exact kvLookup_canonicalKv_aktag n d t m ts hd ht hts
    · intro t2 hmem2 hne2
      exact absurd (List.mem_erase_of_ne hne2 |>.mpr hmem2) (by simp [hE])
    · rw [kvLookup_kvRemove_ne _ _ _ e4, kvLookup_kvRemove_ne _ _ _ e5]
      exact kvLookup_canonicalKv_digest n d m ts
  · rw [sremCmd_found_keep _ _ _ _ rfl hak1 hmem hE]
    dsimp only
    refine ⟨rfl, rfl, ?_, ?_, ?_, ?_⟩
    · rw [kvLookup_kvSet_ne _ _ _ _ e1]
      exact kvLookup_kvRemove_self _ _
    · rw [kvLookup_kvSet_ne _ _ _ _ e2, kvLookup_kvRemove_ne _ _ _ e3]
      exact kvLookup_canonicalKv_aktag n d t m ts hd ht hts
    · intro t2 hmem2 hne2
      have e6 : generate_manifest_key n t2 ≠ generate_alias_key n d :=
        generate_manifest_key_ne_alias n n t2 d (tag_colonCount_le t2 (hts t2 hmem2)) rfl
      have e7 : generate_manifest_key n t2 ≠ generate_manifest_key n t :=
        generate_manifest_key_ne n t2 t hne2
      rw [kvLookup_kvSet_ne _ _ _ _ e6, kvLookup_kvRemove_ne _ _ _ e7]
      exact kvLookup_canonicalKv_tag n d t2 m ts hd (hts t2 hmem2) hmem2
    · rw [kvLookup_kvSet_ne _ _ _ _ e4, kvLookup_kvRemove_ne _ _ _ e5]
      exact kvLookup_canonicalKv_digest n d m ts

/- ## Helper lemmas: the alias chase of Resolve -/

theorem findFirstLive_dead (name : String) : ∀ (ms : List String) (st : Store),
    st.conn = true → deadAll name st.kv ms = true →
    (findFirstLive name ms st).1 = Out.ok none := by
  intro ms
  induction ms with
  | nil => intro st h1 h2; rfl
  | cons t ts ih =>
    intro st hconn hdead
    simp only [deadAll, List.all_cons, Bool.and_eq_true, Bool.not_eq_true'] at hdead
    simp only [findFirstLive]
    rw [manifest_exist_spec name t st hconn]
    rw [hdead.1.1, hdead.1.2]
    simp only [Bool.or_self]
    apply ih
    · exact hconn
    · show deadAll name st.kv ts = true
      simp only [deadAll]
      exact hdead.2

theorem resolve_selfloop (n r : String) : ∀ (fuel : Nat) (st : Store),
    st.conn = true →
    kvLookup (generate_manifest_key n r) st.kv = none →
    kvLookup (generate_alias_key n r) st.kv = some (RVal.set [r]) →
    (manifest fuel n r st).1 = Out.timeout := by
  intro fuel
  induction fuel with
  | zero => intro st h1 h2 h3; rfl
  | succ fuel ih =>
    intro st hconn hmk hak
    have hg : conGetManifest (generate_manifest_key n r) st =
        (Out.err "Couldnt find manifest",
          pushLog (Op.get (generate_manifest_key n r)) st) := by
      simp [conGetManifest, getCmd, from_redis_value, pushLog, hconn, hmk]
    have hs : smembersCmd (generate_alias_key n r)
        (pushLog (Op.get (generate_manifest_key n r)) st) =
        (Except.ok [r],
          pushLog (Op.smembers (generate_alias_key n r))
            (pushLog (Op.get (generate_manifest_key n r)) st)) :=
      smembersCmd_found _ _ _ hconn hak
    simp only [manifest]
    rw [hg]
    dsimp only
    rw [hs]
    dsimp only
    simp only [findFirstLive]
    rw [manifest_exist_spec n r
      (pushLog (Op.smembers (generate_alias_key n r))
        (pushLog (Op.get (generate_manifest_key n r)) st)) hconn]
    dsimp only [pushLog]
    rw [hmk, hak]
    simp only [Option.isSome_none, Option.isSome_some, Bool.false_or]
    exact ih _ hconn hmk hak

/- ## Claim theorems -/

/-- C9: for every string, the tag grammar and the digest grammar are
disjoint: no string satisfies both `is_tag_name_valid` and
`is_accepted_digest`, so every valid reference is classified as exactly one
of tag or digest. -/
theorem c9_tag_digest_disjoint (s : String) :
    (is_tag_name_valid s && is_accepted_digest s) = false :=
  tag_and_digest_impossible s

/-- C10: a Resolve call (`manifest`), successful or not, issues only read
operations to the backend and leaves the backend content and reachability
unchanged: the key-value content after the call equals the content before it,
and the operation log grows only by operations with `Op.isRead`. -/
theorem c10_resolve_readonly (fuel : Nat) (name reference : String) (st : Store) :
    (manifest fuel name reference st).2.kv = st.kv ∧
    (manifest fuel name reference st).2.conn = st.conn ∧
    ∃ ops, (manifest fuel name reference st).2.log = st.log ++ ops ∧
      ops.all Op.isRead = true := by
  obtain ⟨h1, h2, h3⟩ := roext_manifest fuel name reference st
  exact ⟨h2, h1, h3⟩

/-- C5: when the validation gate `is_valid_request` rejects the input, the
three handlers return their not-found or zero-effect result with the store —
content and operation log — completely untouched: no backend operation is
issued. -/
theorem c5_invalid_input_shortcircuit (fuel : Nat) (name reference : String)
    (st : Store) (h : is_valid_request name reference = false) :
    check_manifest name reference st = (Out.ok Status.notFound, st) ∧
    get_manifest fuel name reference st = (Out.ok none, st) ∧
    delete_manifest name reference st = (Out.ok Status.notFound, st) := by
  refine ⟨?_, ?_, ?_⟩
  · simp [check_manifest, h]
  · simp [get_manifest, h]
  · simp [delete_manifest, h]

/-- C5 witness: the empty reference fails both grammars, and on a concrete
populated store all three handlers return the not-found result with the store
unchanged. -/
theorem c5_witness :
    is_valid_request "repo" "" = false ∧
    check_manifest "repo" "" exStoreTwoTags = (Out.ok Status.notFound, exStoreTwoTags) ∧
    get_manifest 8 "repo" "" exStoreTwoTags = (Out.ok none, exStoreTwoTags) ∧
    delete_manifest "repo" "" exStoreTwoTags = (Out.ok Status.notFound, exStoreTwoTags) := by
  have h := c5_invalid_input_shortcircuit 8 "repo" "" exStoreTwoTags (by decide)
  exact ⟨by decide, h.1, h.2.1, h.2.2⟩

/-- C6: for a valid pair and a reachable backend, `manifest_exist` returns
true exactly when the manifest key or the alias-set key is present (a
dangling alias-set key alone suffices), it issues exactly the two `EXISTS`
checks, and it leaves the backend content unchanged. -/
theorem c6_exists_two_checks (name reference : String) (st : Store)
    (hconn : st.conn = true) (_hval : is_valid_request name reference = true) :
    (manifest_exist name reference st).1 =
      Out.ok ((kvLookup (generate_manifest_key name reference) st.kv).isSome
        || (kvLookup (generate_alias_key name reference) st.kv).isSome) ∧
    (manifest_exist name reference st).2.kv = st.kv ∧
    (manifest_exist name reference st).2.conn = st.conn ∧
    (manifest_exist name reference st).2.log =
      st.log ++ [Op.existsKey (generate_manifest_key name reference),
        Op.existsKey (generate_alias_key name reference)] := by
  rw [manifest_exist_spec name reference st hconn]
  refine ⟨rfl, rfl, rfl, ?_⟩
  show (st.log ++ [Op.existsKey (generate_manifest_key name reference)]) ++
      [Op.existsKey (generate_alias_key name reference)] = _
  rw [List.append_assoc]
  rfl

/-- C6 witness: on the concrete two-tag store, looking for the stored digest
returns true with exactly the two existence checks logged. -/
theorem c6_witness :
    exStoreTwoTags.conn = true ∧
    is_valid_request "repo" "sha256:aa" = true ∧
    (manifest_exist "repo" "sha256:aa" exStoreTwoTags).1 = Out.ok true ∧
    (manifest_exist "repo" "sha256:aa" exStoreTwoTags).2.kv = exStoreTwoTags.kv ∧
    (manifest_exist "repo" "sha256:aa" exStoreTwoTags).2.log =
      [Op.existsKey (generate_manifest_key "repo" "sha256:aa"),
        Op.existsKey (generate_alias_key "repo" "sha256:aa")] := by
  have h := c6_exists_two_checks "repo" "sha256:aa" exStoreTwoTags rfl (by decide)
  refine ⟨rfl, by decide, ?_, h.2.1, ?_⟩
  · rw [h.1]; decide
  · rw [h.2.2.2]; rfl

/-- C1 counterexample: on a reachable backend with no keys at all, the direct
lookup misses and the alias set is absent, yet Resolve does not return the
NotFound error — it panics on the `expect` over the filtered alias iterator. -/
theorem c1_counterexample :
    (manifest 8 "repo" "v1" exStoreEmpty).1 = Out.crash "couldnt find an existing alias" := by
  decide

/-- C1 amended: when the direct manifest lookup misses, Resolve returns the
NotFound error only when the alias-set lookup itself errors (wrong key type);
when the alias set is absent, or present with no live member, the lookup
panics on `expect("couldn't find an existing alias")` instead of returning
NotFound. -/
theorem c1_resolve_notfound_amended (name reference : String) (st : Store)
    (fuel : Nat) (hconn : st.conn = true)
    (hmk : kvLookup (generate_manifest_key name reference) st.kv = none) :
    (kvLookup (generate_alias_key name reference) st.kv = none →
      (manifest (fuel + 1) name reference st).1 =
        Out.crash "couldnt find an existing alias") ∧
    (∀ b, kvLookup (generate_alias_key name reference) st.kv = some (RVal.str b) →
      (manifest (fuel + 1) name reference st).1 = Out.err "Couldnt find manifest") ∧
    (∀ ms, kvLookup (generate_alias_key name reference) st.kv = some (RVal.set ms) →
      deadAll name st.kv ms = true →
      (manifest (fuel + 1) name reference st).1 =
        Out.crash "couldnt find an existing alias") := by
  have hg : conGetManifest (generate_manifest_key name reference) st =
      (Out.err "Couldnt find manifest",
        pushLog (Op.get (generate_manifest_key name reference)) st) := by
    simp [conGetManifest, getCmd, from_redis_value, pushLog, hconn, hmk]
  refine ⟨?_, ?_, ?_⟩
  · intro hak
    have hs : smembersCmd (generate_alias_key name reference)
        (pushLog (Op.get (generate_manifest_key name reference)) st) =
        (Except.ok [],
          pushLog (Op.smembers (generate_alias_key name reference))
            (pushLog (Op.get (generate_manifest_key name reference)) st)) :=
      smembersCmd_missing _ _ hconn hak
    simp only [manifest]
    rw [hg]
    dsimp only
    rw [hs]
    rfl
  · intro b hak
    have hs : smembersCmd (generate_alias_key name reference)
        (pushLog (Op.get (generate_manifest_key name reference)) st) =
        (Except.error "WRONGTYPE",
          pushLog (Op.smembers (generate_alias_key name reference))
            (pushLog (Op.get (generate_manifest_key name reference)) st)) := by
      simp [smembersCmd, pushLog, hconn, hak]
    simp only [manifest]
    rw [hg]
    dsimp only
    rw [hs]
  · intro ms hak hdead
    have hs : smembersCmd (generate_alias_key name reference)
        (pushLog (Op.get (generate_manifest_key name reference)) st) =
        (Except.ok ms,
          pushLog (Op.smembers (generate_alias_key name reference))
            (pushLog (Op.get (generate_manifest_key name reference)) st)) :=
      smembersCmd_found _ _ _ hconn hak
    have hfl : (findFirstLive name ms
        (pushLog (Op.smembers (generate_alias_key name reference))
          (pushLog (Op.get (generate_manifest_key name reference)) st))).1 =
        Out.ok none :=
      findFirstLive_dead name ms _ hconn hdead
    simp only [manifest]
    rw [hg]
    dsimp only
    rw [hs]
    dsimp only
    generalize hp : findFirstLive name ms
      (pushLog (Op.smembers (generate_alias_key name reference))
        (pushLog (Op.get (generate_manifest_key name reference)) st)) = p at hfl ⊢
    obtain ⟨o, s⟩ := p
    simp only at hfl
    rw [hfl]

/-- C1 witness: the amended statement applied to the empty reachable store,
absent alias set branch. -/
theorem c1_witness :
    exStoreEmpty.conn = true ∧
    kvLookup (generate_manifest_key "repo" "v1") exStoreEmpty.kv = none ∧
    kvLookup (generate_alias_key "repo" "v1") exStoreEmpty.kv = none ∧
    (manifest 8 "repo" "v1" exStoreEmpty).1 = Out.crash "couldnt find an existing alias" := by
  have h := c1_resolve_notfound_amended "repo" "v1" exStoreEmpty 7 rfl rfl
  exact ⟨rfl, rfl, rfl, h.1 rfl⟩

/-- C3 counterexample: with an unreachable backend, Resolve returns exactly
the NotFound error value (so the backend failure is silently coerced to
NotFound), Exists panics rather than reporting an operation failure, and a
stored manifest with undecodable bytes makes Resolve panic rather than yield
a decode error. -/
theorem c3_counterexample :
    (manifest 8 "repo" "v1" exStoreDown).1 = Out.err "Couldnt find manifest" ∧
    (manifest_exist "repo" "v1" exStoreDown).1 = Out.crash "connection with redis" ∧
    (delete "repo" "v1" exStoreDown).1 = Out.crash "connection refused" ∧
    (manifest 8 "repo" "v1" exStoreBadBytes).1 = Out.crash "bincode deserialize" := by
  refine ⟨by decide, by decide, by decide, by decide⟩

/-- C3 amended: a backend communication failure makes Exists and Delete panic
on their `expect`/`unwrap`, while Resolve coerces it to the NotFound error
value; a stored manifest whose bytes cannot be deserialized panics the lookup
(`bincode::deserialize(bytes).unwrap()`) instead of returning a decode
error. -/
theorem c3_failure_semantics_amended (name reference : String) (st stB : Store)
    (fuel : Nat) (hdown : st.conn = false) (hup : stB.conn = true)
    (hbad : kvLookup (generate_manifest_key name reference) stB.kv =
      some (RVal.str Bin.bad)) :
    (manifest_exist name reference st).1 = Out.crash "connection with redis" ∧
    (manifest (fuel + 1) name reference st).1 = Out.err "Couldnt find manifest" ∧
    (delete name reference st).1 = Out.crash "connection refused" ∧
    (manifest (fuel + 1) name reference stB).1 = Out.crash "bincode deserialize" := by
  refine ⟨?_, ?_, ?_, ?_⟩
  · rw [manifest_exist_down name reference st hdown]
  · simp [manifest, conGetManifest, getCmd, smembersCmd, pushLog, hdown]
  · simp [delete, getdelCmd, pushLog, hdown]
  · simp [manifest, conGetManifest, getCmd, from_redis_value, pushLog, hup, hbad]

/-- C3 witness: the amended statement at the concrete unreachable store and
the concrete bad-bytes store. -/
theorem c3_witness :
    exStoreDown.conn = false ∧
    exStoreBadBytes.conn = true ∧
    kvLookup (generate_manifest_key "repo" "v1") exStoreBadBytes.kv =
      some (RVal.str Bin.bad) ∧
    (manifest 8 "repo" "v1" exStoreDown).1 = Out.err "Couldnt find manifest" ∧
    (manifest 8 "repo" "v1" exStoreBadBytes).1 = Out.crash "bincode deserialize" := by
  have h := c3_failure_semantics_amended "repo" "v1" exStoreDown exStoreBadBytes 7
    rfl rfl (by decide)
  exact ⟨rfl, rfl, by decide, h.2.1, h.2.2.2⟩

/-- C7 counterexample: on a corrupted backend whose alias set for `(repo,
v1)` contains `v1` itself while no manifest key exists, Resolve diverges:
every recursion budget is exhausted, against the claim that resolution is
capped and fails with NotFound. -/
theorem c7_counterexample : resolveDiverges "repo" "v1" exStoreCyc := by
  intro fuel
  exact resolve_selfloop "repo" "v1" fuel exStoreCyc rfl rfl rfl

/-- C7 amended: the alias-chasing recursion of Resolve is not capped at any
finite depth: whenever the manifest key is absent and the alias set of the
reference contains the reference itself, Resolve recurses forever (every fuel
bound times out). Termination is only by construction of a well-formed
store. -/
theorem c7_resolve_unbounded_amended (name reference : String) (st : Store)
    (hconn : st.conn = true)
    (hmk : kvLookup (generate_manifest_key name reference) st.kv = none)
    (hak : kvLookup (generate_alias_key name reference) st.kv =
      some (RVal.set [reference])) :
    resolveDiverges name reference st := by
  intro fuel
  exact resolve_selfloop name reference fuel st hconn hmk hak

/-- C7 witness: the amended statement applied to the concrete cyclic store,
instantiated at fuel 9. -/
theorem c7_witness :
    exStoreCyc.conn = true ∧
    kvLookup (generate_manifest_key "repo" "v1") exStoreCyc.kv = none ∧
    kvLookup (generate_alias_key "repo" "v1") exStoreCyc.kv =
      some (RVal.set ["v1"]) ∧
    (manifest 9 "repo" "v1" exStoreCyc).1 = Out.timeout := by
  have h := c7_resolve_unbounded_amended "repo" "v1" exStoreCyc rfl rfl (by decide)
  exact ⟨rfl, rfl, by decide, h 9⟩

/-- C2 counterexample: a manifest stored under its digest key with zero
aliasing tags and no alias set: the claim demands a returned count of exactly
1, but `delete` discards the GETDEL removal from the sum and returns 0. -/
theorem c2_counterexample :
    is_accepted_digest "sha256:aa" = true ∧
    kvLookup (generate_manifest_key "repo" "sha256:aa") exStoreDigestOnly.kv =
      some (RVal.str (Bin.good exManifest)) ∧
    kvLookup (generate_alias_key "repo" "sha256:aa") exStoreDigestOnly.kv = none ∧
    (delete "repo" "sha256:aa" exStoreDigestOnly).1 = Out.ok 0 := by
  refine ⟨by decide, by decide, by decide, by decide⟩

/-- C2 amended: for a stored manifest at its digest key with at most 126
aliasing tags (so the `i8` count of the source cannot overflow), `delete` by
digest returns one count per aliased tag key removed plus one for the
alias-set key when it existed; the removed digest key itself is not counted,
so with zero aliasing tags the returned count is 0, not 1. -/
theorem c2_delete_count_amended (n d : String) (m : Manifest) (ts : List String)
    (lg : List Op) (hd : is_accepted_digest d = true)
    (hts : ∀ t ∈ ts, is_tag_name_valid t = true) (hnd : ts.Nodup)
    (hlen : ts.length ≤ 126) :
    (delete n d ⟨true, canonicalKv n d m ts, lg⟩).1 =
      Out.ok ((ts.length : Int) + (if ts.isEmpty then 0 else 1)) :=
  (delete_digest_canonical n d m ts lg hd hts hnd hlen).1

/-- C2 witness: deleting the digest in a two-tag repository returns 3 (two
tag keys plus the alias-set key; the digest key removal is uncounted); with
no tags the count is 0, as in the counterexample. -/
theorem c2_witness :
    is_accepted_digest "sha256:aa" = true ∧
    (∀ t ∈ (["v1", "v2"] : List String), is_tag_name_valid t = true) ∧
    (delete "repo" "sha256:aa"
      ⟨true, canonicalKv "repo" "sha256:aa" exManifest ["v1", "v2"], []⟩).1 =
      Out.ok 3 := by
  have h := c2_delete_count_amended "repo" "sha256:aa" exManifest ["v1", "v2"] []
    (by decide) (by decide) (by decide) (by decide)
  refine ⟨by decide, by decide, ?_⟩
  rw [h]
  decide

/-- C8 counterexample: the digest names something that exists (`Exists` is
true), yet the first `delete` already returns 0, against the claim that the
first call yields a positive count. -/
theorem c8_counterexample :
    (manifest_exist "repo" "sha256:aa" exStoreDigestOnly).1 = Out.ok true ∧
    (delete "repo" "sha256:aa" exStoreDigestOnly).1 = Out.ok 0 ∧
    (delete "repo" "sha256:aa"
      (delete "repo" "sha256:aa" exStoreDigestOnly).2).1 = Out.ok 0 := by
  refine ⟨by decide, by decide, by decide⟩

/-- C8 amended: in a well-formed single-manifest repository with at most 126
aliasing tags (so the `i8` count of the source cannot overflow), the second
of two consecutive deletes of the same reference always returns 0; the first
returns a positive count when the reference is an aliasing tag (count 1) or a
digest with at least one aliasing tag (count tags + 1), but returns 0 for a
digest with no aliasing tags even though it removes the manifest key. -/
theorem c8_idempotent_delete_amended (n d : String) (m : Manifest)
    (ts : List String) (lg : List Op) (hd : is_accepted_digest d = true)
    (hts : ∀ t ∈ ts, is_tag_name_valid t = true) (hnd : ts.Nodup)
    (hlen : ts.length ≤ 126) (hm : m.config.digest = d) :
    ((delete n d ⟨true, canonicalKv n d m ts, lg⟩).1 =
        Out.ok ((ts.length : Int) + (if ts.isEmpty then 0 else 1)) ∧
      (delete n d (delete n d ⟨true, canonicalKv n d m ts, lg⟩).2).1 = Out.ok 0) ∧
    (∀ t ∈ ts,
      (delete n t ⟨true, canonicalKv n d m ts, lg⟩).1 = Out.ok 1 ∧
      (delete n t (delete n t ⟨true, canonicalKv n d m ts, lg⟩).2).1 = Out.ok 0) := by
  obtain ⟨d1, d2, d3, d4⟩ := delete_digest_canonical n d m ts lg hd hts hnd hlen
  refine ⟨⟨d1, delete_both_missing n d _ d2 d3 d4⟩, ?_⟩
  intro t hmem
  obtain ⟨t1, t2, t3, t4, t5, t6⟩ := delete_tag_canonical n d t m ts lg hd hts hmem hm
  exact ⟨t1, delete_both_missing n t _ t2 t3 t4⟩

/-- C8 witness: the amended statement on the concrete two-tag repository:
deleting the digest twice yields 3 then 0; deleting the tag v1 twice yields 1
then 0. -/
theorem c8_witness :
    (delete "repo" "sha256:aa"
      ⟨true, canonicalKv "repo" "sha256:aa" exManifest ["v1", "v2"], []⟩).1 =
      Out.ok 3 ∧
    (delete "repo" "sha256:aa" (delete "repo" "sha256:aa"
      ⟨true, canonicalKv "repo" "sha256:aa" exManifest ["v1", "v2"], []⟩).2).1 =
      Out.ok 0 ∧
    (delete "repo" "v1"
      ⟨true, canonicalKv "repo" "sha256:aa" exManifest ["v1", "v2"], []⟩).1 =
      Out.ok 1 ∧
    (delete "repo" "v1" (delete "repo" "v1"
      ⟨true, canonicalKv "repo" "sha256:aa" exManifest ["v1", "v2"], []⟩).2).1 =
      Out.ok 0 := by
  have h := c8_idempotent_delete_amended "repo" "sha256:aa" exManifest ["v1", "v2"] []
    (by decide) (by decide) (by decide) (by decide) (by decide)
  refine ⟨?_, h.1.2, (h.2 "v1" (by decide)).1, (h.2 "v1" (by decide)).2⟩
  rw [h.1.1]
  decide

/-- C4: deleting a tag `t1` that aliases digest `d` removes only the manifest
key of `t1` and the membership of `t1` in the alias set of `d` (the deleted
manifest holds `d` as its config digest): the manifest keys of the sibling
tag `t2` and of `d`, and the membership of `t2`, are unchanged — every other
key is unchanged — and `Exists` and `Resolve` for `t2` succeed afterwards
exactly as before. The returned count is 1. -/
theorem c4_sibling_preservation (n d t1 t2 : String) (m1 m2 md : Manifest)
    (al : List String) (st : Store) (fuel : Nat)
    (hconn : st.conn = true)
    (ht1 : is_tag_name_valid t1 = true) (ht2 : is_tag_name_valid t2 = true)
    (hd : is_accepted_digest d = true) (hne : t1 ≠ t2)
    (hm1 : kvLookup (generate_manifest_key n t1) st.kv = some (RVal.str (Bin.good m1)))
    (hdig : m1.config.digest = d)
    (hm2 : kvLookup (generate_manifest_key n t2) st.kv = some (RVal.str (Bin.good m2)))
    (hmd : kvLookup (generate_manifest_key n d) st.kv = some (RVal.str (Bin.good md)))
    (hal : kvLookup (generate_alias_key n d) st.kv = some (RVal.set al))
    (hin1 : t1 ∈ al) (hin2 : t2 ∈ al) :
    (delete n t1 st).1 = Out.ok 1 ∧
    kvLookup (generate_manifest_key n t1) (delete n t1 st).2.kv = none ∧
    kvLookup (generate_manifest_key n t2) (delete n t1 st).2.kv =
      some (RVal.str (Bin.good m2)) ∧
    kvLookup (generate_manifest_key n d) (delete n t1 st).2.kv =
      some (RVal.str (Bin.good md)) ∧
    kvLookup (generate_alias_key n d) (delete n t1 st).2.kv =
      some (RVal.set (al.erase t1)) ∧
    t2 ∈ al.erase t1 ∧
    (∀ k, k ≠ generate_manifest_key n t1 → k ≠ generate_alias_key n d →
      kvLookup k (delete n t1 st).2.kv = kvLookup k st.kv) ∧
    (manifest_exist n t2 st).1 = Out.ok true ∧
    (manifest_exist n t2 (delete n t1 st).2).1 = Out.ok true ∧
    (manifest (fuel + 1) n t2 st).1 = Out.ok m2 ∧
    (manifest (fuel + 1) n t2 (delete n t1 st).2).1 = Out.ok m2 := by
  have e1 : generate_manifest_key n t1 ≠ generate_alias_key n d :=
    generate_manifest_key_ne_alias n n t1 d (tag_colonCount_le t1 ht1) rfl
  have e5 : generate_manifest_key n t2 ≠ generate_manifest_key n t1 :=
    generate_manifest_key_ne n t2 t1 (fun hc => hne hc.symm)
  have e6 : generate_manifest_key n t2 ≠ generate_alias_key n d :=
    generate_manifest_key_ne_alias n n t2 d (tag_colonCount_le t2 ht2) rfl
  have e7 : generate_manifest_key n d ≠ generate_manifest_key n t1 :=
    fun hc => mk_tag_ne_mk_digest n t1 d ht1 hd hc.symm
  have e8 : generate_manifest_key n d ≠ generate_alias_key n d :=
    generate_manifest_key_ne_alias n n d d (digest_colonCount_le d hd) rfl
  have ht2in : t2 ∈ al.erase t1 :=
    (List.mem_erase_of_ne (fun hc => hne hc.symm)).mpr hin2
  have herase : al.erase t1 ≠ [] := List.ne_nil_of_mem ht2in
  have hgd : getdelCmd (generate_manifest_key n t1) st =
      (Except.ok (Value.data (Bin.good m1)),
        ⟨true, kvRemove (generate_manifest_key n t1) st.kv,
          st.log ++ [Op.getdel (generate_manifest_key n t1)]⟩) :=
    getdelCmd_found _ st _ hconn hm1
  have hak1 : kvLookup (generate_alias_key n d)
      (kvRemove (generate_manifest_key n t1) st.kv) = some (RVal.set al) := by
    rw [kvLookup_kvRemove_ne _ _ _ (fun hc => e1 hc.symm)]
    exact hal
  have hdig2 : is_accepted_digest t1 = false := digest_of_tag_false t1 ht1
  have hsrem : sremCmd (generate_alias_key n d) t1
      (⟨true, kvRemove (generate_manifest_key n t1) st.kv,
        st.log ++ [Op.getdel (generate_manifest_key n t1)]⟩ : Store) =
      (Except.ok 1,
        ⟨true, kvSet (generate_alias_key n d) (RVal.set (al.erase t1))
          (kvRemove (generate_manifest_key n t1) st.kv),
          (st.log ++ [Op.getdel (generate_manifest_key n t1)]) ++
            [Op.srem (generate_alias_key n d) t1]⟩) :=
    sremCmd_found_keep _ _ _ _ rfl hak1 hin1 herase
  have hdel : delete n t1 st =
      (Out.ok 1,
        ⟨true, kvSet (generate_alias_key n d) (RVal.set (al.erase t1))
          (kvRemove (generate_manifest_key n t1) st.kv),
          (st.log ++ [Op.getdel (generate_manifest_key n t1)]) ++
            [Op.srem (generate_alias_key n d) t1]⟩) := by
    simp only [delete]
    rw [hgd]
    dsimp only [from_redis_value]
    simp only [hdig2, Bool.false_eq_true, if_false]
    simp only [remove_tag_relation_from_digest]
    rw [hdig]
    rw [hsrem]
  rw [hdel]
  dsimp only
  have lk1 : kvLookup (generate_manifest_key n t1)
      (kvSet (generate_alias_key n d) (RVal.set (al.erase t1))
        (kvRemove (generate_manifest_key n t1) st.kv)) = none := by
    rw [kvLookup_kvSet_ne _ _ _ _ e1]
    exact kvLookup_kvRemove_self _ _
  have lk2 : kvLookup (generate_manifest_key n t2)
      (kvSet (generate_alias_key n d) (RVal.set (al.erase t1))
        (kvRemove (generate_manifest_key n t1) st.kv)) =
      some (RVal.str (Bin.good m2)) := by
    rw [kvLookup_kvSet_ne _ _ _ _ e6, kvLookup_kvRemove_ne _ _ _ e5]
    exact hm2
  have lkd : kvLookup (generate_manifest_key n d)
      (kvSet (generate_alias_key n d) (RVal.set (al.erase t1))
        (kvRemove (generate_manifest_key n t1) st.kv)) =
      some (RVal.str (Bin.good md)) := by
    rw [kvLookup_kvSet_ne _ _ _ _ e8, kvLookup_kvRemove_ne _ _ _ e7]
    exact hmd
  refine ⟨rfl, lk1, lk2, lkd, kvLookup_kvSet_self _ _ _, ht2in, ?_, ?_, ?_, ?_, ?_⟩
  · intro k hk1 hk2
    rw [kvLookup_kvSet_ne _ _ _ _ hk2]
    exact kvLookup_kvRemove_ne _ _ _ hk1
  · rw [manifest_exist_spec n t2 st hconn]
    dsimp only
    rw [hm2]
    rfl
  · rw [manifest_exist_spec n t2 _ rfl]
    dsimp only
    rw [lk2]
    rfl
  · rw [manifest_direct fuel n t2 st m2 hconn hm2]
  · rw [manifest_direct fuel n t2 _ m2 rfl lk2]

/-- C4 witness: the sibling-preservation statement at the concrete two-tag
store: deleting v1 returns 1, removes only the v1 key and its membership, and
v2 still exists and resolves to the stored manifest. -/
theorem c4_witness :
    exStoreTwoTags.conn = true ∧
    kvLookup (generate_manifest_key "repo" "v1") exStoreTwoTags.kv =
      some (RVal.str (Bin.good exManifest)) ∧
    kvLookup (generate_alias_key "repo" "sha256:aa") exStoreTwoTags.kv =
      some (RVal.set ["v1", "v2"]) ∧
    (delete "repo" "v1" exStoreTwoTags).1 = Out.ok 1 ∧
    kvLookup (generate_manifest_key "repo" "v1")
      (delete "repo" "v1" exStoreTwoTags).2.kv = none ∧
    kvLookup (generate_manifest_key "repo" "v2")
      (delete "repo" "v1" exStoreTwoTags).2.kv =
      some (RVal.str (Bin.good exManifest)) ∧
    (manifest_exist "repo" "v2" (delete "repo" "v1" exStoreTwoTags).2).1 =
      Out.ok true ∧
    (manifest 8 "repo" "v2" (delete "repo" "v1" exStoreTwoTags).2).1 =
      Out.ok exManifest := by
  have h := c4_sibling_preservation "repo" "sha256:aa" "v1" "v2"
    exManifest exManifest exManifest ["v1", "v2"] exStoreTwoTags 7
    rfl (by decide) (by decide) (by decide) (by decide)
    (by decide) rfl (by decide) (by decide) (by decide) (by decide) (by decide)
  exact ⟨rfl, by decide, by decide, h.1, h.2.1, h.2.2.1, h.2.2.2.2.2.2.2.2.1,
    h.2.2.2.2.2.2.2.2.2.2⟩
